import Mathlib

/-!
Verification of the website integrity crawler embedded in
backend/api_server.py: the URL normalizer, the crawl state machine of the
generated Stagehand script (page classification, link tester, button tester,
main crawling loop, report builder), and the subprocess wrapper around it.
Definitions are shallow embeddings of the source; the browser is modelled as
an explicit environment (World) mapping navigations and button clicks to
their outcomes.
-/

/-! URL normalizer model (the normalizeUrl helper of the crawler script). -/

/-- Model of the parsed-URL object produced by the WHATWG URL constructor for
absolute http or https URLs, restricted to the two fields the crawler reads:
origin (scheme plus host) and pathname (from the first slash after the host up
to the query string or fragment). -/
structure UrlObj where
  origin : List Char
  pathname : List Char
deriving Repr, DecidableEq

/-- Characters that may appear in the host part: everything until the first
slash, question mark or hash. -/
def isHostChar (c : Char) : Bool := !(c == '/' || c == '?' || c == '#')

/-- Characters that may appear in the pathname: everything until the first
question mark (query string) or hash (fragment). -/
def isPathChar (c : Char) : Bool := !(c == '?' || c == '#')

/-- Parse the part of a URL after the scheme: the host runs until the first
slash, question mark or hash; an empty host is a parse failure; the pathname
starts at the first slash and stops before the query or fragment, defaulting
to a single slash when absent. -/
def parseAfterScheme (scheme rest : List Char) : Option UrlObj :=
  if rest.takeWhile isHostChar = [] then none
  else
    some { origin := scheme ++ rest.takeWhile isHostChar,
           pathname :=
             match rest.dropWhile isHostChar with
             | '/' :: _ => (rest.dropWhile isHostChar).takeWhile isPathChar
             | _ => ['/'] }

/-- Model of the JS URL constructor call in normalizeUrl: succeeds exactly on
absolute http or https URLs with a nonempty host, fails (throws) otherwise. -/
def parseUrl : List Char → Option UrlObj
  | 'h' :: 't' :: 't' :: 'p' :: 's' :: ':' :: '/' :: '/' :: rest =>
      parseAfterScheme ['h', 't', 't', 'p', 's', ':', '/', '/'] rest
  | 'h' :: 't' :: 't' :: 'p' :: ':' :: '/' :: '/' :: rest =>
      parseAfterScheme ['h', 't', 't', 'p', ':', '/', '/'] rest
  | _ => none

/-- Strip every trailing slash, modelling the replace of the trailing-slash
regex by the empty string on urlObj.pathname. -/
def stripSlashes : List Char → List Char
  | [] => []
  | c :: cs =>
    match stripSlashes cs with
    | [] => if c == '/' then [] else [c]
    | r => c :: r

/-- Trim a single trailing slash, modelling the ternary fallback
url.endsWith slash ? url.slice(0, -1) : url. -/
def trimOneSlash (cs : List Char) : List Char :=
  if cs.getLast? = some '/' then cs.dropLast else cs

/-- Core of normalizeUrl on character lists: origin concatenated with the
pathname stripped of trailing slashes when the URL parses, the single-slash
trim fallback otherwise. -/
def normalizeUrlL (cs : List Char) : List Char :=
  match parseUrl cs with
  | some u => u.origin ++ stripSlashes u.pathname
  | none => trimOneSlash cs

/-! Crawler data model and the crawl functions of the embedded script. -/

/-- The normalizeUrl helper of the embedded crawler script. -/
def normalizeUrl (s : String) : String :=
  String.mk (normalizeUrlL s.data)

/-- True when the string ends in at least two slashes; on such malformed
inputs the fallback trim is not idempotent. -/
def endsTwoSlash (cs : List Char) : Bool :=
  cs.getLast? == some '/' && cs.dropLast.getLast? == some '/'

/-- An internal link extracted by page.evaluate: its visible text and href.
The isInternal and nonempty-text filtering and the slice to 30 links happen
inside the browser evaluation, so the links list of a probe result is already
the filtered, capped list. -/
structure Link where
  text : String
  href : String
deriving Repr, DecidableEq

/-- A button extracted by page.evaluate (capped sample, label text only). -/
structure Button where
  text : String
deriving Repr, DecidableEq

/-- The page data extracted by one page.goto plus page.evaluate round trip:
transport status, final URL after redirects, title, the content and
error-page heuristics computed in the browser, and the capped link and
button samples. -/
structure ProbeResult where
  title : String
  finalUrl : String
  statusCode : Nat
  hasContent : Bool
  isErrorPage : Bool
  links : List Link
  buttons : List Button
deriving Repr, DecidableEq

/-- Outcome of one navigation attempt: the page data, or the thrown
navigation error with its message. -/
inductive ProbeOutcome where
  | err (msg : String)
  | ok (r : ProbeResult)
deriving Repr, DecidableEq

/-- Result of clicking a button after re-navigating to the source page:
final URL plus the narrower error and content heuristics of the button
evaluation. -/
structure BtnResult where
  url : String
  isError : Bool
  hasContent : Bool
deriving Repr, DecidableEq

/-- Outcome of one button invocation (goto back, click, evaluate): the click
result, or a failure message when the navigation or the click throws. -/
inductive ClickOutcome where
  | err (msg : String)
  | ok (r : BtnResult)
deriving Repr, DecidableEq

/-- The browser environment driving one crawl run: what each navigation to a
URL yields, and what each button invocation on a page yields. -/
structure World where
  probe : String → ProbeOutcome
  click : String → String → ClickOutcome

/-- Issue type strings used by the crawler. -/
inductive IssueType where
  | ERROR_PAGE
  | BLANK_PAGE
  | BROKEN_LINK
  | BLANK_DESTINATION
  | NAVIGATION_ERROR
  | BUTTON_ERROR
  | BUTTON_BLANK
  | PAGE_LOAD_ERROR
deriving Repr, DecidableEq

/-- One entry of the bugs array: type, referring page, optional link or
button label, optional destination, message, severity, optional status. -/
structure Issue where
  type : IssueType
  page : String
  link : Option String := none
  button : Option String := none
  destination : Option String := none
  issue : String
  severity : String
  statusCode : Option Nat := none
deriving Repr, DecidableEq

/-- The mutable crawl state of one run: the five dedup collections, the FIFO
queue, the bugs list and the page counter. -/
structure CrawlState where
  visitedUrls : List String
  testedLinks : List String
  problematicUrls : List String
  reportedBlankPages : List String
  urlQueue : List String
  bugs : List Issue
  pageCount : Nat
deriving Repr, DecidableEq

/-- The page budget constant of the crawler script. -/
def maxPages : Nat := 10

/-- Add to a JS Set modelled as a duplicate-free list: append when new. -/
def addSet (l : List String) (x : String) : List String :=
  if x ∈ l then l else l ++ [x]

/-- Observable events of a run, mirroring the progress logging: one full-page
classification pass, one link probe (page.goto on a href), one link-test
classification with its destination, one button invocation, one enqueue of a
discovered URL, and one main-loop skip. -/
inductive Event where
  | pagePass (url : String)
  | linkProbe (href : String)
  | linkClass (dest : String)
  | buttonProbe (label : String)
  | enqueue (url : String)
  | skip (url : String)
deriving Repr, DecidableEq

/-- The PAGE_LOAD_ERROR issue pushed when loading a page throws. -/
def pageLoadErrorIssue (p : String) (msg : String) : Issue :=
  { type := .PAGE_LOAD_ERROR, page := p,
    issue := "Failed to load page: " ++ msg, severity := "high" }

/-- The ERROR_PAGE issue pushed for an HTTP error or error-page heuristic. -/
def errorPageIssue (p : String) (pd : ProbeResult) : Issue :=
  { type := .ERROR_PAGE, page := p,
    issue := "Error page detected: " ++ pd.title ++ " (HTTP " ++ toString pd.statusCode ++ ")",
    severity := "high", statusCode := some pd.statusCode }

/-- The BLANK_PAGE issue pushed for a page with too little content. -/
def blankPageIssue (p : String) : Issue :=
  { type := .BLANK_PAGE, page := p,
    issue := "Page appears to be blank or has very little content",
    severity := "medium" }

/-- The BROKEN_LINK issue pushed when a link destination is an error page. -/
def brokenLinkIssue (p : String) (l : Link) (dest : String) (sc : Nat) : Issue :=
  { type := .BROKEN_LINK, page := p, link := some l.text, destination := some dest,
    issue := "Link \"" ++ l.text ++ "\" leads to error page (HTTP " ++ toString sc ++ ")",
    severity := "high", statusCode := some sc }

/-- The BLANK_DESTINATION issue pushed when a link destination is blank. -/
def blankDestinationIssue (p : String) (l : Link) (dest : String) : Issue :=
  { type := .BLANK_DESTINATION, page := p, link := some l.text, destination := some dest,
    issue := "Link \"" ++ l.text ++ "\" leads to blank page", severity := "medium" }

/-- The NAVIGATION_ERROR issue pushed when probing a link throws; note that it
carries no destination field. -/
def navigationErrorIssue (p : String) (l : Link) (msg : String) : Issue :=
  { type := .NAVIGATION_ERROR, page := p, link := some l.text,
    issue := "Failed to navigate to \"" ++ l.text ++ "\": " ++ msg.take 100,
    severity := "medium" }

/-- The BUTTON_ERROR issue pushed when a button leads to an error page. -/
def buttonErrorIssue (p : String) (b : Button) (r : BtnResult) : Issue :=
  { type := .BUTTON_ERROR, page := p, button := some b.text, destination := some r.url,
    issue := "Button \"" ++ b.text ++ "\" leads to error page", severity := "high" }

/-- The BUTTON_BLANK issue pushed when a button leads to a blank page. -/
def buttonBlankIssue (p : String) (b : Button) (r : BtnResult) : Issue :=
  { type := .BUTTON_BLANK, page := p, button := some b.text, destination := some r.url,
    issue := "Button \"" ++ b.text ++ "\" leads to blank page", severity := "medium" }

/-- One iteration of the link-testing loop body for one candidate link on the
page with normalized URL ncur: skip self links and already tested destinations,
otherwise record the destination as tested, probe it and classify the outcome
into BROKEN_LINK, BLANK_DESTINATION, a healthy enqueue, or NAVIGATION_ERROR. -/
def testLink (w : World) (ncur : String) (st : CrawlState) (l : Link) :
    CrawlState × List Event :=
  if normalizeUrl l.href = ncur then (st, [])
  else if normalizeUrl l.href ∈ st.testedLinks then (st, [])
  else
    let st1 := { st with testedLinks := addSet st.testedLinks (normalizeUrl l.href) }
    match w.probe l.href with
    | .err msg =>
      ({ st1 with bugs := st1.bugs ++ [navigationErrorIssue ncur l msg] },
       [Event.linkProbe l.href])
    | .ok r =>
      if r.statusCode ≥ 400 ∨ r.isErrorPage = true then
        ({ st1 with
            bugs := st1.bugs ++ [brokenLinkIssue ncur l (normalizeUrl r.finalUrl) r.statusCode],
            problematicUrls := addSet st1.problematicUrls (normalizeUrl r.finalUrl),
            urlQueue := st1.urlQueue.erase (normalizeUrl r.finalUrl) },
         [Event.linkProbe l.href, Event.linkClass (normalizeUrl r.finalUrl)])
      else if r.hasContent = false then
        ({ st1 with
            bugs := st1.bugs ++ [blankDestinationIssue ncur l (normalizeUrl r.finalUrl)],
            problematicUrls := addSet st1.problematicUrls (normalizeUrl r.finalUrl),
            reportedBlankPages := addSet st1.reportedBlankPages (normalizeUrl r.finalUrl),
            urlQueue := st1.urlQueue.erase (normalizeUrl r.finalUrl) },
         [Event.linkProbe l.href, Event.linkClass (normalizeUrl r.finalUrl)])
      else
        if normalizeUrl r.finalUrl ∉ st1.visitedUrls ∧
            normalizeUrl r.finalUrl ∉ st1.urlQueue ∧
            normalizeUrl r.finalUrl ∉ st1.problematicUrls then
          ({ st1 with urlQueue := st1.urlQueue ++ [normalizeUrl r.finalUrl] },
           [Event.linkProbe l.href, Event.linkClass (normalizeUrl r.finalUrl),
            Event.enqueue (normalizeUrl r.finalUrl)])
        else
          (st1, [Event.linkProbe l.href, Event.linkClass (normalizeUrl r.finalUrl)])

/-- The link-testing loop over the links of one page. -/
def linkPhase (w : World) (ncur : String) (st : CrawlState) :
    List Link → CrawlState × List Event
  | [] => (st, [])
  | l :: ls =>
    let r := testLink w ncur st l
    let rest := linkPhase w ncur r.1 ls
    (rest.1, r.2 ++ rest.2)

/-- One iteration of the button-testing loop: navigate back to the page,
click, and classify; failures of the navigation or the click are swallowed. -/
def testButton (w : World) (ncur : String) (st : CrawlState) (b : Button) :
    CrawlState × List Event :=
  match w.click ncur b.text with
  | .err _ => (st, [Event.buttonProbe b.text])
  | .ok r =>
    if r.isError = true then
      ({ st with bugs := st.bugs ++ [buttonErrorIssue ncur b r] }, [Event.buttonProbe b.text])
    else if r.hasContent = false then
      ({ st with bugs := st.bugs ++ [buttonBlankIssue ncur b r] }, [Event.buttonProbe b.text])
    else (st, [Event.buttonProbe b.text])

/-- The button-testing loop over the (at most five) sampled buttons. -/
def buttonPhase (w : World) (ncur : String) (st : CrawlState) :
    List Button → CrawlState × List Event
  | [] => (st, [])
  | b :: bs =>
    let r := testButton w ncur st b
    let rest := buttonPhase w ncur r.1 bs
    (rest.1, r.2 ++ rest.2)

/-- The crawlPage function of the script: guard on visited and the budget,
mark visited and count the page, probe it, classify (PAGE_LOAD_ERROR on a
thrown navigation, ERROR_PAGE on HTTP or heuristic errors, BLANK_PAGE on
missing content with reportedBlankPages suppression), and on a healthy page
run the link phase then the button phase on the first five buttons. -/
def crawlPage (w : World) (st : CrawlState) (currentUrl : String) :
    CrawlState × List Event :=
  if normalizeUrl currentUrl ∈ st.visitedUrls ∨ st.pageCount ≥ maxPages then (st, [])
  else
    let st1 := { st with
      visitedUrls := addSet st.visitedUrls (normalizeUrl currentUrl),
      pageCount := st.pageCount + 1 }
    match w.probe (normalizeUrl currentUrl) with
    | .err msg =>
      ({ st1 with bugs := st1.bugs ++ [pageLoadErrorIssue (normalizeUrl currentUrl) msg] },
       [Event.pagePass (normalizeUrl currentUrl)])
    | .ok pd =>
      if pd.statusCode ≥ 400 ∨ pd.isErrorPage = true then
        ({ st1 with bugs := st1.bugs ++ [errorPageIssue (normalizeUrl currentUrl) pd] },
         [Event.pagePass (normalizeUrl currentUrl)])
      else if pd.hasContent = false then
        (if normalizeUrl currentUrl ∈ st1.reportedBlankPages then st1
         else { st1 with bugs := st1.bugs ++ [blankPageIssue (normalizeUrl currentUrl)] },
         [Event.pagePass (normalizeUrl currentUrl)])
      else
        let lp := linkPhase w (normalizeUrl currentUrl) st1 pd.links
        let bp := buttonPhase w (normalizeUrl currentUrl) lp.1 (pd.buttons.take 5)
        (bp.1, Event.pagePass (normalizeUrl currentUrl) :: (lp.2 ++ bp.2))

/-- The main crawling loop: while the queue is nonempty and the budget is not
exhausted, pop the front, skip it when its normalization was already tested as
a link or found problematic, otherwise crawl it as a full page. Returns the
final state and the event trace of the run. -/
def runLoop (w : World) (st : CrawlState) : CrawlState × List Event :=
  match hq : st.urlQueue with
  | [] => (st, [])
  | next :: rest =>
    if hb : st.pageCount < maxPages then
      if normalizeUrl next ∈ st.testedLinks ∨ normalizeUrl next ∈ st.problematicUrls then
        let r := runLoop w { st with urlQueue := rest }
        (r.1, Event.skip (normalizeUrl next) :: r.2)
      else
        let c := crawlPage w { st with urlQueue := rest } next
        let r := runLoop w c.1
        (r.1, c.2 ++ r.2)
    else (st, [])
termination_by (maxPages - st.pageCount, st.urlQueue.length)
decreasing_by
  · apply Prod.Lex.right
    simp [hq]
  · have hlp : ∀ (n : String) (ls : List Link) (s : CrawlState),
        (linkPhase w n s ls).1.pageCount = s.pageCount := by
      intro n ls
      induction ls with
      | nil => intro s; rfl
      | cons l ls ih =>
        intro s
        simp only [linkPhase, ih]
        simp only [testLink]
        repeat' split
        all_goals rfl
    have hbp : ∀ (n : String) (bs : List Button) (s : CrawlState),
        (buttonPhase w n s bs).1.pageCount = s.pageCount := by
      intro n bs
      induction bs with
      | nil => intro s; rfl
      | cons b bs ih =>
        intro s
        simp only [buttonPhase, ih]
        simp only [testButton]
        repeat' split
        all_goals rfl
    have hcp : ∀ (s : CrawlState) (u : String),
        crawlPage w s u = (s, []) ∨ (crawlPage w s u).1.pageCount = s.pageCount + 1 := by
      intro s u
      simp only [crawlPage]
      split
      · exact Or.inl rfl
      · right
        split
        · rfl
        · split
          · rfl
          · split
            · split <;> rfl
            · simp only [hbp, hlp]
    rcases hcp { st with urlQueue := rest } next with h1 | h1
    · rw [h1]
      apply Prod.Lex.right
      simp [hq]
    · rw [h1]
      apply Prod.Lex.left
      show maxPages - (st.pageCount + 1) < maxPages - st.pageCount
      omega

/-- The final results object assembled by the crawler script (duration is
wall-clock time, passed through as an opaque string). -/
structure Report where
  success : Bool
  url : String
  duration : String
  pagesVisited : Nat
  issuesFound : Nat
  bugs : List Issue
  crawledUrls : List String
  remainingUrls : List String
deriving Repr, DecidableEq

/-- The crawl state created at the start of a run: the seed URL pre-queued
after trimming one trailing slash (the inline ternary of the script, not the
full normalizeUrl canonicalization), everything else empty. -/
def initState (targetUrl : String) : CrawlState :=
  { visitedUrls := [], testedLinks := [], problematicUrls := [],
    reportedBlankPages := [],
    urlQueue := [String.mk (trimOneSlash targetUrl.data)],
    bugs := [], pageCount := 0 }

/-- The seed entry of the initial queue. -/
def roughTrim (s : String) : String := String.mk (trimOneSlash s.data)

/-- Final state of a whole crawl run from the given seed. -/
def runEnd (w : World) (seed : String) : CrawlState := (runLoop w (initState seed)).1

/-- Event trace of a whole crawl run from the given seed. -/
def runEvents (w : World) (seed : String) : List Event := (runLoop w (initState seed)).2

/-- The report builder: run the crawl, then assemble the results object. -/
def runCrawler (w : World) (targetUrl : String) (duration : String) : Report :=
  { success := true, url := targetUrl, duration := duration,
    pagesVisited := (runEnd w targetUrl).visitedUrls.length,
    issuesFound := (runEnd w targetUrl).bugs.length,
    bugs := (runEnd w targetUrl).bugs,
    crawledUrls := (runEnd w targetUrl).visitedUrls,
    remainingUrls := (runEnd w targetUrl).urlQueue }

/-- Number of full-page classification passes recorded in a trace. -/
def passCount (evs : List Event) : Nat :=
  (evs.filter fun e => match e with | .pagePass _ => true | _ => false).length

/-- Normalizations of the hrefs probed by the link tester, in order. -/
def probedNorms (evs : List Event) : List String :=
  evs.filterMap fun e => match e with | .linkProbe h => some (normalizeUrl h) | _ => none

/-- Destinations of the link-test classifications, in order. -/
def classDests (evs : List Event) : List String :=
  evs.filterMap fun e => match e with | .linkClass d => some d | _ => none

-- A first concrete world: probing always throws.
def wProbeFail : World :=
  { probe := fun _ => .err "net::ERR_CONNECTION_REFUSED",
    click := fun _ _ => .err "click failed" }

/-- Structural invariant of the crawl state: the queue is duplicate free,
blacklisted URLs are never in the queue, visited is duplicate free and its
cardinality equals the page counter, and the counter respects the budget. -/
def StateInv (st : CrawlState) : Prop :=
  st.urlQueue.Nodup ∧
  (∀ u ∈ st.problematicUrls, u ∉ st.urlQueue) ∧
  st.visitedUrls.Nodup ∧
  st.visitedUrls.length = st.pageCount ∧
  st.pageCount ≤ maxPages

instance (st : CrawlState) : Decidable (StateInv st) := by
  unfold StateInv
  infer_instance

/-- One iteration of the main crawling loop as a relation: pop the head of
the queue under the budget guard, then either skip it (already tested as a
link or problematic) or crawl it as a full page. -/
inductive LoopStep (w : World) : CrawlState → CrawlState → Prop
  | skip (st : CrawlState) (next : String) (rest : List String)
      (hq : st.urlQueue = next :: rest) (hb : st.pageCount < maxPages)
      (hs : normalizeUrl next ∈ st.testedLinks ∨ normalizeUrl next ∈ st.problematicUrls) :
      LoopStep w st { st with urlQueue := rest }
  | crawl (st : CrawlState) (next : String) (rest : List String)
      (hq : st.urlQueue = next :: rest) (hb : st.pageCount < maxPages)
      (hs : ¬(normalizeUrl next ∈ st.testedLinks ∨ normalizeUrl next ∈ st.problematicUrls)) :
      LoopStep w st (crawlPage w { st with urlQueue := rest } next).1

/-- Zero or more iterations of the main loop. -/
def Steps (w : World) : CrawlState → CrawlState → Prop :=
  Relation.ReflTransGen (LoopStep w)

/-- A world with no cross-normalization redirects: the final URL of every
successful probe normalizes to the normalization of the href that was probed,
and that normalization is a fixed point of the normalizer. -/
def GoodWorld (w : World) : Prop :=
  ∀ href r, w.probe href = ProbeOutcome.ok r →
    normalizeUrl r.finalUrl = normalizeUrl href ∧
    normalizeUrl (normalizeUrl href) = normalizeUrl href

/-- A world with no cross-normalization redirects (redirect part only). -/
def NoRedirect (w : World) : Prop :=
  ∀ href r, w.probe href = ProbeOutcome.ok r →
    normalizeUrl r.finalUrl = normalizeUrl href

/-- The seed page of the run probes as a healthy page: HTTP success, no
error-page heuristic, enough content. -/
def HealthySeed (w : World) (seed : String) : Prop :=
  ∃ r, w.probe (normalizeUrl (roughTrim seed)) = ProbeOutcome.ok r ∧
    r.statusCode < 400 ∧ r.isErrorPage = false ∧ r.hasContent = true

/-- Queue shape invariant used for the link-discovery analysis: every queue
entry other than the pre-queued seed entry was put there by the link tester,
is therefore already in testedLinks, and is a normalization fixed point. -/
def QueueFromLinks (b : String) (st : CrawlState) : Prop :=
  ∀ u ∈ st.urlQueue, (u ∈ st.testedLinks ∧ normalizeUrl u = u) ∨ u = b

/-- Outcome of the subprocess call that runs the crawler script: the hard
timeout fired, setup raised some exception, or the process completed with an
exit code and (when the marker-delimited JSON block parses) a parsed report. -/
inductive SubprocessOutcome where
  | timeoutExpired
  | setupFailure (msg : String)
  | completed (returncode : Int) (parsed : Option Report)

/-- Outcome of removing the temporary crawler script (the os.path.exists
check followed by os.remove): the removal succeeds or the file is already
absent, or os.remove raises an OSError with this message (a delete race
between the exists check and the remove, permissions, the file held open). -/
inductive CleanupOutcome where
  | ok
  | raises (msg : String)

/-- What a call of run_stagehand_crawler produces: a parsed crawler report,
an object with success false and an error string, or an exception that
propagates out of the function uncaught. -/
inductive ApiResult where
  | report (r : Report)
  | failure (error : String)
  | uncaught (msg : String)
deriving DecidableEq

/-- The Python wrapper around the crawler subprocess. On a completed
subprocess the script cleanup runs inside the outer try, so an OSError there
is caught by the except Exception clause and becomes the generic failure
object; in the generic handler the cleanup is wrapped in its own
try/except pass. The except TimeoutExpired handler, however, runs the
cleanup unguarded, and an exception raised inside one except handler is not
caught by a sibling except clause, so an OSError there propagates out of
the function. -/
def run_stagehand_crawler (cleanup : CleanupOutcome) : SubprocessOutcome → ApiResult
  | .timeoutExpired =>
    match cleanup with
    | .ok => .failure "Crawler timed out after 60 seconds"
    | .raises msg => .uncaught msg
  | .setupFailure msg => .failure ("Failed to run crawler: " ++ msg)
  | .completed rc parsed =>
    match cleanup with
    | .raises msg => .failure ("Failed to run crawler: " ++ msg)
    | .ok =>
      if rc = 0 then
        match parsed with
        | some r => .report r
        | none => .failure "Failed to parse crawler output"
      else .failure ("Crawler failed with exit code " ++ toString rc)

/-- A healthy page with no links and no buttons. -/
def pdPlain (u : String) : ProbeResult :=
  { title := "Home", finalUrl := u, statusCode := 200, hasContent := true,
    isErrorPage := false, links := [], buttons := [] }

/-- World for the duplicate-destination run: the seed page links to two
distinct hrefs whose probes both land (redirect) on the same final URL with
HTTP 404. -/
def wDupDest : World :=
  { probe := fun s =>
      if s = "https://s.com" then
        ProbeOutcome.ok
          { title := "Home", finalUrl := "https://s.com", statusCode := 200,
            hasContent := true, isErrorPage := false,
            links := [{ text := "a", href := "https://e.com/a" },
                      { text := "b", href := "https://e.com/b" }],
            buttons := [] }
      else if s = "https://e.com/a" then
        ProbeOutcome.ok
          { title := "404", finalUrl := "https://e.com/z", statusCode := 404,
            hasContent := true, isErrorPage := true, links := [], buttons := [] }
      else if s = "https://e.com/b" then
        ProbeOutcome.ok
          { title := "404", finalUrl := "https://e.com/z", statusCode := 404,
            hasContent := true, isErrorPage := true, links := [], buttons := [] }
      else ProbeOutcome.err "unreachable",
    click := fun _ _ => ClickOutcome.err "no buttons" }

/-- World for the redirect run: the seed links to one href whose probe lands
on a different URL, which is then crawled as a second full page. -/
def wRedirect : World :=
  { probe := fun s =>
      if s = "https://s.com" then
        ProbeOutcome.ok
          { title := "Home", finalUrl := "https://s.com", statusCode := 200,
            hasContent := true, isErrorPage := false,
            links := [{ text := "a", href := "https://e.com/q" }], buttons := [] }
      else if s = "https://e.com/q" then
        ProbeOutcome.ok
          { title := "Q", finalUrl := "https://r.com/z", statusCode := 200,
            hasContent := true, isErrorPage := false, links := [], buttons := [] }
      else if s = "https://r.com/z" then ProbeOutcome.ok (pdPlain "https://r.com/z")
      else ProbeOutcome.err "unreachable",
    click := fun _ _ => ClickOutcome.err "no buttons" }

/-- World for the transient navigation error run: the first link probe throws,
the second probe redirects onto the first destination, which is then enqueued
but skipped by the main loop. -/
def wNavErr : World :=
  { probe := fun s =>
      if s = "https://s.com" then
        ProbeOutcome.ok
          { title := "Home", finalUrl := "https://s.com", statusCode := 200,
            hasContent := true, isErrorPage := false,
            links := [{ text := "a", href := "https://d.com/p" },
                      { text := "b", href := "https://e.com/q" }],
            buttons := [] }
      else if s = "https://e.com/q" then
        ProbeOutcome.ok
          { title := "Q", finalUrl := "https://d.com/p", statusCode := 200,
            hasContent := true, isErrorPage := false, links := [], buttons := [] }
      else ProbeOutcome.err "net::ERR_TIMED_OUT",
    click := fun _ _ => ClickOutcome.err "no buttons" }

/-- World whose seed page is healthy with no links at all; every other
navigation throws. -/
def wHealthy : World :=
  { probe := fun s =>
      if s = "https://s.com" then ProbeOutcome.ok (pdPlain "https://s.com")
      else ProbeOutcome.err "unreachable",
    click := fun _ _ => ClickOutcome.err "no buttons" }

def cexBlacklistState : CrawlState :=
  { visitedUrls := [], testedLinks := [], problematicUrls := ["https://p.com"],
    reportedBlankPages := [], urlQueue := [], bugs := [], pageCount := 0 }

def cexTestedState : CrawlState :=
  { visitedUrls := [], testedLinks := ["https://e.com/a"], problematicUrls := [],
    reportedBlankPages := [], urlQueue := [], bugs := [], pageCount := 0 }

/-- World whose every page probes as an HTTP 404 error page. -/
def wError : World :=
  { probe := fun s =>
      ProbeOutcome.ok
        { title := "404 Not Found", finalUrl := s, statusCode := 404,
          hasContent := true, isErrorPage := true,
          links := [{ text := "a", href := "https://x.com/a" }],
          buttons := [{ text := "Go" }] },
    click := fun _ _ => ClickOutcome.err "no buttons" }

/-! Normalizer lemmas. -/

theorem takeWhile_append_all {p : Char → Bool} {l1 : List Char} (l2 : List Char)
    (h : ∀ c ∈ l1, p c = true) :
    (l1 ++ l2).takeWhile p = l1 ++ l2.takeWhile p := by
  induction l1 with
  | nil => simp
  | cons a l ih =>
    have ha : p a = true := h a (by simp)
    simp [List.takeWhile_cons, ha, ih (fun c hc => h c (by simp [hc]))]

theorem dropWhile_append_all {p : Char → Bool} {l1 : List Char} (l2 : List Char)
    (h : ∀ c ∈ l1, p c = true) :
    (l1 ++ l2).dropWhile p = l2.dropWhile p := by
  induction l1 with
  | nil => simp
  | cons a l ih =>
    have ha : p a = true := h a (by simp)
    simp [List.dropWhile_cons, ha, ih (fun c hc => h c (by simp [hc]))]

theorem takeWhile_all {p : Char → Bool} {l : List Char}
    (h : ∀ c ∈ l, p c = true) : l.takeWhile p = l := by
  have := @takeWhile_append_all p l [] h
  simpa using this

theorem stripSlashes_cons (a : Char) (cs : List Char) :
    stripSlashes (a :: cs) =
      match stripSlashes cs with
      | [] => if a == '/' then [] else [a]
      | r => a :: r := rfl

theorem stripSlashes_last : ∀ (cs : List Char), (stripSlashes cs).getLast? ≠ some '/'
  | [] => by simp [stripSlashes]
  | a :: l => by
    have ih := stripSlashes_last l
    rw [stripSlashes_cons]
    rcases hr : stripSlashes l with _ | ⟨b, r⟩
    · by_cases ha : a = '/' <;> simp [ha]
    · rw [hr] at ih
      simpa using ih

theorem stripSlashes_eq_self : ∀ {cs : List Char}, cs.getLast? ≠ some '/' → stripSlashes cs = cs
  | [], _ => rfl
  | [a], h => by
    rw [stripSlashes_cons]
    have ha : a ≠ '/' := fun hc => h (by simp [hc])
    simp [stripSlashes, ha]
  | a :: b :: t, h => by
    have ht : (b :: t).getLast? ≠ some '/' := by
      rwa [List.getLast?_cons_cons] at h
    have ih := stripSlashes_eq_self ht
    rw [stripSlashes_cons, ih]

theorem stripSlashes_mem : ∀ (cs : List Char) {c : Char}, c ∈ stripSlashes cs → c ∈ cs
  | [], c, h => by simp [stripSlashes] at h
  | a :: l, c, h => by
    have ih := @stripSlashes_mem l c
    rw [stripSlashes_cons] at h
    rcases hr : stripSlashes l with _ | ⟨b, r⟩
    · rw [hr] at h
      by_cases ha : a = '/'
      · simp [ha] at h
      · simp [ha] at h
        simp [h]
    · rw [hr] at h
      rcases List.mem_cons.mp h with h1 | h2
      · simp [h1]
      · have := ih (by rw [hr]; exact h2)
        simp [this]

theorem stripSlashes_head (a : Char) (cs : List Char) :
    stripSlashes (a :: cs) = [] ∨ ∃ t, stripSlashes (a :: cs) = a :: t := by
  rw [stripSlashes_cons]
  rcases hr : stripSlashes cs with _ | ⟨b, r⟩
  · by_cases ha : a = '/'
    · left; simp [ha]
    · right; exact ⟨[], by simp [ha]⟩
  · right; exact ⟨b :: r, rfl⟩

theorem reparse_normal (scheme host sp : List Char)
    (hs : scheme = ['h', 't', 't', 'p', 's', ':', '/', '/'] ∨
          scheme = ['h', 't', 't', 'p', ':', '/', '/'])
    (hh : host ≠ [])
    (hhd : ∀ c ∈ host, isHostChar c = true)
    (hsp : sp = [] ∨ ∃ t, sp = '/' :: t)
    (hspq : ∀ c ∈ sp, isPathChar c = true)
    (hlast : sp.getLast? ≠ some '/') :
    normalizeUrlL (scheme ++ host ++ sp) = scheme ++ host ++ sp := by
  have hTake : (host ++ sp).takeWhile isHostChar = host := by
    rw [takeWhile_append_all _ hhd]
    rcases hsp with h0 | ⟨t, ht⟩
    · simp [h0]
    · subst ht
      simp [List.takeWhile_cons, isHostChar]
  have hDrop : (host ++ sp).dropWhile isHostChar = sp := by
    rw [dropWhile_append_all _ hhd]
    rcases hsp with h0 | ⟨t, ht⟩
    · simp [h0]
    · subst ht
      simp [List.dropWhile_cons, isHostChar]
  have hparse : parseAfterScheme scheme (host ++ sp) =
      some ⟨scheme ++ host, if sp = [] then ['/'] else sp⟩ := by
    rcases hsp with h0 | ⟨t, ht⟩
    · subst h0
      simp only [parseAfterScheme, hTake, hDrop, if_neg hh]
      simp
    · subst ht
      simp only [parseAfterScheme, hTake, hDrop, if_neg hh]
      simp [takeWhile_all hspq]
  have hpu : parseUrl (scheme ++ host ++ sp) =
      some ⟨scheme ++ host, if sp = [] then ['/'] else sp⟩ := by
    rcases hs with h1 | h1 <;>
      · subst h1
        simp only [List.cons_append, List.nil_append, List.append_assoc] at hparse ⊢
        rw [parseUrl]
        exact hparse
  rw [normalizeUrlL, hpu]
  rcases hsp with h0 | ⟨t, ht⟩
  · subst h0
    simp [stripSlashes]
  · subst ht
    simp only [if_neg (List.cons_ne_nil '/' t)]
    rw [stripSlashes_eq_self hlast, List.append_assoc]

theorem parseAfterScheme_some {scheme rest : List Char} {u : UrlObj}
    (h : parseAfterScheme scheme rest = some u) :
    (∃ host, host ≠ [] ∧ u.origin = scheme ++ host ∧ ∀ c ∈ host, isHostChar c = true) ∧
    (∃ pt, u.pathname = '/' :: pt) ∧ (∀ c ∈ u.pathname, isPathChar c = true) := by
  rw [parseAfterScheme] at h
  split at h
  · exact absurd h (by simp)
  · rename_i hne
    have hu := Option.some.inj h
    subst hu
    refine ⟨⟨rest.takeWhile isHostChar, hne, rfl, fun c hc => List.mem_takeWhile_imp hc⟩, ?_⟩
    constructor
    · show ∃ pt, (match rest.dropWhile isHostChar with
        | '/' :: _ => (rest.dropWhile isHostChar).takeWhile isPathChar
        | _ => ['/']) = '/' :: pt
      split
      · rename_i t0 htail
        rw [htail, List.takeWhile_cons]
        have : isPathChar '/' = true := by decide
        rw [this]
        simp
      · exact ⟨[], rfl⟩
    · show ∀ c ∈ (match rest.dropWhile isHostChar with
        | '/' :: _ => (rest.dropWhile isHostChar).takeWhile isPathChar
        | _ => ['/']), isPathChar c = true
      split
      · exact fun c hc => List.mem_takeWhile_imp hc
      · intro c hc
        simp at hc
        subst hc
        decide

theorem normalizeUrlL_idem_parsed {cs : List Char} {u : UrlObj} (h : parseUrl cs = some u) :
    normalizeUrlL (normalizeUrlL cs) = normalizeUrlL cs := by
  have hn : normalizeUrlL cs = u.origin ++ stripSlashes u.pathname := by
    rw [normalizeUrlL, h]
  rw [hn]
  rw [parseUrl.eq_def] at h
  split at h <;>
    first
    | exact absurd h (by simp)
    | · obtain ⟨⟨host, hh, ho, hhd⟩, ⟨pt, hp⟩, hpc⟩ := parseAfterScheme_some h
        rw [ho]
        apply reparse_normal
        · first | exact Or.inl rfl | exact Or.inr rfl
        · exact hh
        · exact hhd
        · rw [hp]; exact stripSlashes_head '/' pt
        · exact fun c hc => hpc c (stripSlashes_mem _ hc)
        · exact stripSlashes_last _

theorem parseUrl_append_ne_none {cs : List Char} (c : Char) (h : parseUrl cs ≠ none) :
    parseUrl (cs ++ [c]) ≠ none := by
  rw [parseUrl.eq_def] at h
  split at h
  · rename_i rest
    have : parseAfterScheme ['h', 't', 't', 'p', 's', ':', '/', '/'] rest ≠ none := h
    rw [parseAfterScheme] at this
    rcases rest with _ | ⟨r0, rest'⟩
    · simp at this
    · have hr0 : isHostChar r0 = true := by
        by_contra hr
        simp [List.takeWhile_cons, Bool.not_eq_true] at this hr
        simp [hr] at this
      show parseUrl (('h' :: 't' :: 't' :: 'p' :: 's' :: ':' :: '/' :: '/' :: r0 :: rest') ++ [c]) ≠ none
      simp only [List.cons_append]
      rw [parseUrl]
      rw [parseAfterScheme]
      simp [List.takeWhile_cons, hr0]
  · rename_i rest
    have : parseAfterScheme ['h', 't', 't', 'p', ':', '/', '/'] rest ≠ none := h
    rw [parseAfterScheme] at this
    rcases rest with _ | ⟨r0, rest'⟩
    · simp at this
    · have hr0 : isHostChar r0 = true := by
        by_contra hr
        simp [List.takeWhile_cons, Bool.not_eq_true] at this hr
        simp [hr] at this
      show parseUrl (('h' :: 't' :: 't' :: 'p' :: ':' :: '/' :: '/' :: r0 :: rest') ++ [c]) ≠ none
      simp only [List.cons_append]
      rw [parseUrl]
      rw [parseAfterScheme]
      simp [List.takeWhile_cons, hr0]
  · exact absurd rfl h

theorem parseUrl_dropLast_none {cs : List Char} (h : parseUrl cs = none)
    (hl : cs.getLast? = some '/') : parseUrl cs.dropLast = none := by
  by_contra hne
  have hcs : cs ≠ [] := by
    intro h0
    rw [h0] at hl
    simp at hl
  have hlast : cs.getLast hcs = '/' := by
    have := List.getLast?_eq_getLast cs hcs
    rw [this] at hl
    exact Option.some.inj hl
  have hdec : cs.dropLast ++ ['/'] = cs := by
    have := List.dropLast_append_getLast hcs
    rw [hlast] at this
    exact this
  have := parseUrl_append_ne_none '/' hne
  rw [hdec] at this
  exact this h

theorem normalizeUrlL_idem_fallback {cs : List Char} (hp : parseUrl cs = none)
    (h2 : endsTwoSlash cs = false) :
    normalizeUrlL (normalizeUrlL cs) = normalizeUrlL cs := by
  have hn : normalizeUrlL cs = trimOneSlash cs := by
    rw [normalizeUrlL, hp]
  by_cases hl : cs.getLast? = some '/'
  · have ht : trimOneSlash cs = cs.dropLast := by
      rw [trimOneSlash, if_pos hl]
    have hp2 : parseUrl cs.dropLast = none := parseUrl_dropLast_none hp hl
    have hl2 : cs.dropLast.getLast? ≠ some '/' := by
      intro hc
      rw [endsTwoSlash] at h2
      simp [hl, hc] at h2
    rw [hn, ht]
    rw [normalizeUrlL, hp2, trimOneSlash, if_neg hl2]
  · have ht : trimOneSlash cs = cs := by
      rw [trimOneSlash, if_neg hl]
    rw [hn, ht, hn, ht]

theorem normalizeUrlL_idem {cs : List Char}
    (h : (parseUrl cs).isSome = true ∨ endsTwoSlash cs = false) :
    normalizeUrlL (normalizeUrlL cs) = normalizeUrlL cs := by
  rcases hp : parseUrl cs with _ | u
  · rcases h with h1 | h1
    · rw [hp] at h1
      simp at h1
    · exact normalizeUrlL_idem_fallback hp h1
  · exact normalizeUrlL_idem_parsed hp

theorem normalizeUrl_idem {u : String}
    (h : (parseUrl u.data).isSome = true ∨ endsTwoSlash u.data = false) :
    normalizeUrl (normalizeUrl u) = normalizeUrl u := by
  show String.mk (normalizeUrlL (String.mk (normalizeUrlL u.data)).data) =
    String.mk (normalizeUrlL u.data)
  have : (String.mk (normalizeUrlL u.data)).data = normalizeUrlL u.data := rfl
  rw [this, normalizeUrlL_idem h]

theorem runLoop_nil {w : World} {st : CrawlState} (hq : st.urlQueue = []) :
    runLoop w st = (st, []) := by
  rw [runLoop]
  split
  · rfl
  · rename_i n2 r2 hq2
    rw [hq] at hq2
    cases hq2

theorem runLoop_stop {w : World} {st : CrawlState} {next : String} {rest : List String}
    (hq : st.urlQueue = next :: rest) (hb : ¬ st.pageCount < maxPages) :
    runLoop w st = (st, []) := by
  rw [runLoop]
  split
  · rfl
  · rw [dif_neg hb]

theorem runLoop_skip {w : World} {st : CrawlState} {next : String} {rest : List String}
    (hq : st.urlQueue = next :: rest) (hb : st.pageCount < maxPages)
    (hs : normalizeUrl next ∈ st.testedLinks ∨ normalizeUrl next ∈ st.problematicUrls) :
    runLoop w st = ((runLoop w { st with urlQueue := rest }).1,
      Event.skip (normalizeUrl next) :: (runLoop w { st with urlQueue := rest }).2) := by
  rw [runLoop]
  split
  · rename_i hq2
    rw [hq2] at hq
    cases hq
  · rename_i n2 r2 hq2
    rw [hq] at hq2
    injection hq2 with e1 e2
    subst e1
    subst e2
    rw [dif_pos hb, if_pos hs]

theorem runLoop_crawl {w : World} {st : CrawlState} {next : String} {rest : List String}
    (hq : st.urlQueue = next :: rest) (hb : st.pageCount < maxPages)
    (hs : ¬(normalizeUrl next ∈ st.testedLinks ∨ normalizeUrl next ∈ st.problematicUrls)) :
    runLoop w st = ((runLoop w (crawlPage w { st with urlQueue := rest } next).1).1,
      (crawlPage w { st with urlQueue := rest } next).2 ++
        (runLoop w (crawlPage w { st with urlQueue := rest } next).1).2) := by
  rw [runLoop]
  split
  · rename_i hq2
    rw [hq2] at hq
    cases hq
  · rename_i n2 r2 hq2
    rw [hq] at hq2
    injection hq2 with e1 e2
    subst e1
    subst e2
    rw [dif_pos hb, if_neg hs]

theorem testButton_frame (w : World) (n : String) (st : CrawlState) (b : Button) :
    (testButton w n st b).1.urlQueue = st.urlQueue ∧
    (testButton w n st b).1.visitedUrls = st.visitedUrls ∧
    (testButton w n st b).1.problematicUrls = st.problematicUrls ∧
    (testButton w n st b).1.testedLinks = st.testedLinks ∧
    (testButton w n st b).1.reportedBlankPages = st.reportedBlankPages ∧
    (testButton w n st b).1.pageCount = st.pageCount ∧
    ∃ t, (testButton w n st b).1.bugs = st.bugs ++ t ∧
      ∀ i ∈ t, i.type = IssueType.BUTTON_ERROR ∨ i.type = IssueType.BUTTON_BLANK := by
  simp only [testButton]
  repeat' split
  · exact ⟨rfl, rfl, rfl, rfl, rfl, rfl, [], by simp, by simp⟩
  · exact ⟨rfl, rfl, rfl, rfl, rfl, rfl, [buttonErrorIssue n b _], rfl, by simp [buttonErrorIssue]⟩
  · exact ⟨rfl, rfl, rfl, rfl, rfl, rfl, [buttonBlankIssue n b _], rfl, by simp [buttonBlankIssue]⟩
  · exact ⟨rfl, rfl, rfl, rfl, rfl, rfl, [], by simp, by simp⟩

theorem testButton_events (w : World) (n : String) (st : CrawlState) (b : Button) :
    (testButton w n st b).2 = [Event.buttonProbe b.text] := by
  simp only [testButton]
  repeat' split
  all_goals rfl

theorem buttonPhase_frame (w : World) (n : String) (bs : List Button) :
    ∀ (st : CrawlState),
    (buttonPhase w n st bs).1.urlQueue = st.urlQueue ∧
    (buttonPhase w n st bs).1.visitedUrls = st.visitedUrls ∧
    (buttonPhase w n st bs).1.problematicUrls = st.problematicUrls ∧
    (buttonPhase w n st bs).1.testedLinks = st.testedLinks ∧
    (buttonPhase w n st bs).1.reportedBlankPages = st.reportedBlankPages ∧
    (buttonPhase w n st bs).1.pageCount = st.pageCount ∧
    ∃ t, (buttonPhase w n st bs).1.bugs = st.bugs ++ t ∧
      ∀ i ∈ t, i.type = IssueType.BUTTON_ERROR ∨ i.type = IssueType.BUTTON_BLANK := by
  induction bs with
  | nil =>
    intro st
    exact ⟨rfl, rfl, rfl, rfl, rfl, rfl, [], by simp [buttonPhase], by simp⟩
  | cons b bs ih =>
    intro st
    obtain ⟨h1, h2, h3, h4, h5, h6, t1, ht1, hty1⟩ := testButton_frame w n st b
    obtain ⟨g1, g2, g3, g4, g5, g6, t2, ht2, hty2⟩ := ih (testButton w n st b).1
    simp only [buttonPhase]
    refine ⟨by rw [g1, h1], by rw [g2, h2], by rw [g3, h3], by rw [g4, h4],
      by rw [g5, h5], by rw [g6, h6], t1 ++ t2, ?_, ?_⟩
    · rw [ht2, ht1, List.append_assoc]
    · intro i hi
      rcases List.mem_append.mp hi with h | h
      · exact hty1 i h
      · exact hty2 i h

theorem buttonPhase_events (w : World) (n : String) (bs : List Button) :
    ∀ (st : CrawlState), ∀ e ∈ (buttonPhase w n st bs).2, ∃ lb, e = Event.buttonProbe lb := by
  induction bs with
  | nil =>
    intro st e he
    simp [buttonPhase] at he
  | cons b bs ih =>
    intro st e he
    simp only [buttonPhase] at he
    rcases List.mem_append.mp he with h | h
    · rw [testButton_events] at h
      simp at h
      exact ⟨b.text, h⟩
    · exact ih _ e h

theorem addSet_sub (l : List String) (x : String) : l ⊆ addSet l x := by
  rw [addSet]
  split
  · exact fun y hy => hy
  · exact fun y hy => List.mem_append.mpr (Or.inl hy)

theorem mem_addSet {l : List String} {x y : String} :
    y ∈ addSet l x ↔ y ∈ l ∨ y = x := by
  rw [addSet]
  split
  · rename_i hx
    constructor
    · exact fun h => Or.inl h
    · rintro (h | h)
      · exact h
      · rw [h]; exact hx
  · simp

theorem mem_addSet_self (l : List String) (x : String) : x ∈ addSet l x :=
  mem_addSet.mpr (Or.inr rfl)

theorem addSet_of_not_mem {l : List String} {x : String} (h : x ∉ l) :
    addSet l x = l ++ [x] := by
  rw [addSet, if_neg h]

theorem testLink_visited (w : World) (n : String) (st : CrawlState) (l : Link) :
    (testLink w n st l).1.visitedUrls = st.visitedUrls ∧
    (testLink w n st l).1.pageCount = st.pageCount := by
  simp only [testLink]
  repeat' split
  all_goals exact ⟨rfl, rfl⟩

theorem testLink_skip {w : World} {n : String} {st : CrawlState} {l : Link}
    (h : normalizeUrl l.href ∈ st.testedLinks) : testLink w n st l = (st, []) := by
  by_cases hself : normalizeUrl l.href = n
  · rw [testLink, if_pos hself]
  · rw [testLink, if_neg hself, if_pos h]

theorem testLink_self {w : World} {n : String} {st : CrawlState} {l : Link}
    (h : normalizeUrl l.href = n) : testLink w n st l = (st, []) := by
  rw [testLink, if_pos h]

theorem testLink_tested (w : World) (n : String) (st : CrawlState) (l : Link) :
    ((testLink w n st l).1.testedLinks = st.testedLinks ∧ (testLink w n st l).2 = []) ∨
    (normalizeUrl l.href ∉ st.testedLinks ∧
      (testLink w n st l).1.testedLinks = st.testedLinks ++ [normalizeUrl l.href]) := by
  by_cases hself : normalizeUrl l.href = n
  · rw [testLink_self hself]
    exact Or.inl ⟨rfl, rfl⟩
  by_cases hmem : normalizeUrl l.href ∈ st.testedLinks
  · rw [testLink_skip hmem]
    exact Or.inl ⟨rfl, rfl⟩
  · right
    refine ⟨hmem, ?_⟩
    simp only [testLink, if_neg hself, if_neg hmem]
    have ha : addSet st.testedLinks (normalizeUrl l.href) = st.testedLinks ++ [normalizeUrl l.href] :=
      addSet_of_not_mem hmem
    repeat' split
    all_goals exact ha

theorem testLink_tested_sub (w : World) (n : String) (st : CrawlState) (l : Link) :
    st.testedLinks ⊆ (testLink w n st l).1.testedLinks := by
  rcases testLink_tested w n st l with ⟨h, _⟩ | ⟨_, h⟩
  · rw [h]
    exact List.Subset.refl _
  · rw [h]
    exact fun y hy => List.mem_append.mpr (Or.inl hy)

theorem testLink_prob_mono (w : World) (n : String) (st : CrawlState) (l : Link) :
    st.problematicUrls ⊆ (testLink w n st l).1.problematicUrls := by
  simp only [testLink]
  repeat' split
  all_goals first
    | exact fun y hy => hy
    | exact addSet_sub _ _

theorem testLink_bugs (w : World) (n : String) (st : CrawlState) (l : Link) :
    ∃ t, (testLink w n st l).1.bugs = st.bugs ++ t ∧
      ∀ i ∈ t, i.type = IssueType.BROKEN_LINK ∨ i.type = IssueType.BLANK_DESTINATION ∨
        i.type = IssueType.NAVIGATION_ERROR := by
  simp only [testLink]
  repeat' split
  · exact ⟨[], by simp, by simp⟩
  · exact ⟨[], by simp, by simp⟩
  · exact ⟨[navigationErrorIssue n l _], rfl, by simp [navigationErrorIssue]⟩
  · exact ⟨[brokenLinkIssue n l _ _], rfl, by simp [brokenLinkIssue]⟩
  · exact ⟨[blankDestinationIssue n l _], rfl, by simp [blankDestinationIssue]⟩
  · exact ⟨[], by simp, by simp⟩
  · exact ⟨[], by simp, by simp⟩

theorem nodup_append_singleton {l : List String} {a : String}
    (h : l.Nodup) (ha : a ∉ l) : (l ++ [a]).Nodup := by
  rw [List.nodup_append]
  refine ⟨h, List.nodup_singleton a, ?_⟩
  intro x hx hx2
  simp at hx2
  subst hx2
  exact ha hx

theorem testLink_qinv (w : World) (n : String) (st : CrawlState) (l : Link)
    (h1 : st.urlQueue.Nodup) (h2 : ∀ u ∈ st.problematicUrls, u ∉ st.urlQueue) :
    (testLink w n st l).1.urlQueue.Nodup ∧
    (∀ u ∈ (testLink w n st l).1.problematicUrls, u ∉ (testLink w n st l).1.urlQueue) := by
  simp only [testLink]
  repeat' split
  · exact ⟨h1, h2⟩
  · exact ⟨h1, h2⟩
  · exact ⟨h1, h2⟩
  · -- BROKEN_LINK branch: erase from queue, add to problematic
    refine ⟨h1.erase _, ?_⟩
    intro u hu
    rcases mem_addSet.mp hu with hp | he
    · intro hq
      exact h2 u hp (List.mem_of_mem_erase hq)
    · subst he
      intro hq
      exact absurd (h1.mem_erase_iff.mp hq).1 (by simp)
  · -- BLANK_DESTINATION branch
    refine ⟨h1.erase _, ?_⟩
    intro u hu
    rcases mem_addSet.mp hu with hp | he
    · intro hq
      exact h2 u hp (List.mem_of_mem_erase hq)
    · subst he
      intro hq
      exact absurd (h1.mem_erase_iff.mp hq).1 (by simp)
  · -- healthy enqueue branch
    rename_i hcond
    refine ⟨nodup_append_singleton h1 hcond.2.1, ?_⟩
    intro u hp hq
    rcases List.mem_append.mp hq with hq1 | hq2
    · exact h2 u hp hq1
    · simp at hq2
      subst hq2
      exact hcond.2.2 hp
  · exact ⟨h1, h2⟩

theorem testLink_passCount (w : World) (n : String) (st : CrawlState) (l : Link) :
    passCount (testLink w n st l).2 = 0 := by
  simp only [testLink]
  repeat' split
  all_goals simp [passCount]

theorem testLink_probed (w : World) (n : String) (st : CrawlState) (l : Link) :
    (probedNorms (testLink w n st l).2 = [] ∧
      (testLink w n st l).1.testedLinks = st.testedLinks) ∨
    (normalizeUrl l.href ∉ st.testedLinks ∧
      probedNorms (testLink w n st l).2 = [normalizeUrl l.href] ∧
      (testLink w n st l).1.testedLinks = st.testedLinks ++ [normalizeUrl l.href]) := by
  by_cases hself : normalizeUrl l.href = n
  · rw [testLink_self hself]
    exact Or.inl ⟨rfl, rfl⟩
  by_cases hmem : normalizeUrl l.href ∈ st.testedLinks
  · rw [testLink_skip hmem]
    exact Or.inl ⟨rfl, rfl⟩
  · right
    refine ⟨hmem, ?_⟩
    simp only [testLink, if_neg hself, if_neg hmem]
    have ha : addSet st.testedLinks (normalizeUrl l.href) =
        st.testedLinks ++ [normalizeUrl l.href] := addSet_of_not_mem hmem
    repeat' split
    all_goals exact ⟨by simp [probedNorms], ha⟩

theorem testLink_class (w : World) (n : String) (st : CrawlState) (l : Link)
    (hnr : ∀ r, w.probe l.href = ProbeOutcome.ok r →
      normalizeUrl r.finalUrl = normalizeUrl l.href) :
    List.Sublist (classDests (testLink w n st l).2) (probedNorms (testLink w n st l).2) := by
  simp only [testLink]
  repeat' split
  · simp [classDests, probedNorms]
  · simp [classDests, probedNorms]
  · simp [classDests, probedNorms]
  · rename_i r heq h
    have := hnr r heq
    simp [classDests, probedNorms, this]
  · rename_i r heq h h2
    have := hnr r heq
    simp [classDests, probedNorms, this]
  · rename_i r heq h h2 h3
    have := hnr r heq
    simp [classDests, probedNorms, this]
  · rename_i r heq h h2 h3
    have := hnr r heq
    simp [classDests, probedNorms, this]

theorem testLink_qfl (w : World) (n : String) (st : CrawlState) (l : Link) (b : String)
    (hg : ∀ r, w.probe l.href = ProbeOutcome.ok r →
      normalizeUrl r.finalUrl = normalizeUrl l.href ∧
      normalizeUrl (normalizeUrl l.href) = normalizeUrl l.href)
    (h : QueueFromLinks b st) : QueueFromLinks b (testLink w n st l).1 := by
  have hsub := testLink_tested_sub w n st l
  intro u hu
  by_cases hself : normalizeUrl l.href = n
  · rw [testLink_self hself] at hu hsub ⊢
    exact h u hu
  by_cases hmem : normalizeUrl l.href ∈ st.testedLinks
  · rw [testLink_skip hmem] at hu hsub ⊢
    exact h u hu
  simp only [testLink, if_neg hself, if_neg hmem] at hu hsub ⊢
  revert hu hsub
  repeat' split
  all_goals intro hu hsub
  · -- nav error: queue unchanged
    rcases h u hu with ⟨ht, hf⟩ | hb2
    · exact Or.inl ⟨hsub ht, hf⟩
    · exact Or.inr hb2
  · -- broken link: queue shrinks
    rcases h u (List.mem_of_mem_erase hu) with ⟨ht, hf⟩ | hb2
    · exact Or.inl ⟨hsub ht, hf⟩
    · exact Or.inr hb2
  · -- blank destination: queue shrinks
    rcases h u (List.mem_of_mem_erase hu) with ⟨ht, hf⟩ | hb2
    · exact Or.inl ⟨hsub ht, hf⟩
    · exact Or.inr hb2
  · -- healthy enqueue
    rename_i r heq hok hcontent hcond
    rcases List.mem_append.mp hu with hq | hq
    · rcases h u hq with ⟨ht, hf⟩ | hb2
      · exact Or.inl ⟨hsub ht, hf⟩
      · exact Or.inr hb2
    · simp at hq
      subst hq
      left
      obtain ⟨hfin, hfix⟩ := hg r heq
      constructor
      · rw [hfin]
        exact mem_addSet_self _ _
      · rw [hfin, hfix]
  · -- healthy, no enqueue
    rcases h u hu with ⟨ht, hf⟩ | hb2
    · exact Or.inl ⟨hsub ht, hf⟩
    · exact Or.inr hb2

theorem linkPhase_visited (w : World) (n : String) (ls : List Link) :
    ∀ st : CrawlState, (linkPhase w n st ls).1.visitedUrls = st.visitedUrls ∧
      (linkPhase w n st ls).1.pageCount = st.pageCount := by
  induction ls with
  | nil => exact fun st => ⟨rfl, rfl⟩
  | cons l ls ih =>
    intro st
    obtain ⟨h1, h2⟩ := testLink_visited w n st l
    obtain ⟨g1, g2⟩ := ih (testLink w n st l).1
    exact ⟨by rw [linkPhase, g1, h1], by rw [linkPhase, g2, h2]⟩

theorem linkPhase_tested_sub (w : World) (n : String) (ls : List Link) :
    ∀ st : CrawlState, st.testedLinks ⊆ (linkPhase w n st ls).1.testedLinks := by
  induction ls with
  | nil => exact fun st => List.Subset.refl _
  | cons l ls ih =>
    intro st
    rw [linkPhase]
    exact fun y hy => ih (testLink w n st l).1 (testLink_tested_sub w n st l hy)

theorem linkPhase_prob_mono (w : World) (n : String) (ls : List Link) :
    ∀ st : CrawlState, st.problematicUrls ⊆ (linkPhase w n st ls).1.problematicUrls := by
  induction ls with
  | nil => exact fun st => List.Subset.refl _
  | cons l ls ih =>
    intro st
    rw [linkPhase]
    exact fun y hy => ih (testLink w n st l).1 (testLink_prob_mono w n st l hy)

theorem linkPhase_bugs (w : World) (n : String) (ls : List Link) :
    ∀ st : CrawlState, ∃ t, (linkPhase w n st ls).1.bugs = st.bugs ++ t ∧
      ∀ i ∈ t, i.type = IssueType.BROKEN_LINK ∨ i.type = IssueType.BLANK_DESTINATION ∨
        i.type = IssueType.NAVIGATION_ERROR := by
  induction ls with
  | nil => exact fun st => ⟨[], by simp [linkPhase], by simp⟩
  | cons l ls ih =>
    intro st
    obtain ⟨t1, ht1, hty1⟩ := testLink_bugs w n st l
    obtain ⟨t2, ht2, hty2⟩ := ih (testLink w n st l).1
    refine ⟨t1 ++ t2, ?_, ?_⟩
    · rw [linkPhase, ht2, ht1, List.append_assoc]
    · intro i hi
      rcases List.mem_append.mp hi with h | h
      · exact hty1 i h
      · exact hty2 i h

theorem linkPhase_qinv (w : World) (n : String) (ls : List Link) :
    ∀ st : CrawlState, st.urlQueue.Nodup → (∀ u ∈ st.problematicUrls, u ∉ st.urlQueue) →
      (linkPhase w n st ls).1.urlQueue.Nodup ∧
      (∀ u ∈ (linkPhase w n st ls).1.problematicUrls, u ∉ (linkPhase w n st ls).1.urlQueue) := by
  induction ls with
  | nil => exact fun st h1 h2 => ⟨h1, h2⟩
  | cons l ls ih =>
    intro st h1 h2
    obtain ⟨g1, g2⟩ := testLink_qinv w n st l h1 h2
    rw [linkPhase]
    exact ih (testLink w n st l).1 g1 g2

theorem linkPhase_passCount (w : World) (n : String) (ls : List Link) :
    ∀ st : CrawlState, passCount (linkPhase w n st ls).2 = 0 := by
  induction ls with
  | nil => intro st; simp [linkPhase, passCount]
  | cons l ls ih =>
    intro st
    rw [linkPhase]
    show passCount ((testLink w n st l).2 ++ (linkPhase w n (testLink w n st l).1 ls).2) = 0
    rw [passCount, List.filter_append, List.length_append]
    have a1 := testLink_passCount w n st l
    have a2 := ih (testLink w n st l).1
    rw [passCount] at a1 a2
    omega

theorem linkPhase_qfl (w : World) (n : String) (ls : List Link) (b : String)
    (hg : GoodWorld w) :
    ∀ st : CrawlState, QueueFromLinks b st → QueueFromLinks b (linkPhase w n st ls).1 := by
  induction ls with
  | nil => exact fun st h => h
  | cons l ls ih =>
    intro st h
    rw [linkPhase]
    exact ih (testLink w n st l).1 (testLink_qfl w n st l b (fun r hr => hg l.href r hr) h)

theorem linkPhase_probed (w : World) (n : String) (ls : List Link) :
    ∀ st : CrawlState,
      (probedNorms (linkPhase w n st ls).2).Nodup ∧
      (∀ x ∈ probedNorms (linkPhase w n st ls).2,
        x ∈ (linkPhase w n st ls).1.testedLinks ∧ x ∉ st.testedLinks) := by
  induction ls with
  | nil =>
    intro st
    constructor
    · simp [linkPhase, probedNorms]
    · intro x hx
      simp [linkPhase, probedNorms] at hx
  | cons l ls ih =>
    intro st
    obtain ⟨ihn, ihm⟩ := ih (testLink w n st l).1
    have hev : (linkPhase w n st (l :: ls)).2 =
        (testLink w n st l).2 ++ (linkPhase w n (testLink w n st l).1 ls).2 := rfl
    have hst : (linkPhase w n st (l :: ls)).1 = (linkPhase w n (testLink w n st l).1 ls).1 := rfl
    rw [hev, hst, probedNorms, List.filterMap_append]
    rcases testLink_probed w n st l with ⟨he, ht⟩ | ⟨hfresh, he, ht⟩
    · rw [probedNorms] at he
      rw [he, List.nil_append]
      constructor
      · exact ihn
      · intro x hx
        obtain ⟨hx1, hx2⟩ := ihm x hx
        rw [ht] at hx2
        exact ⟨hx1, hx2⟩
    · rw [probedNorms] at he
      rw [he]
      have hndr : normalizeUrl l.href ∉
          probedNorms (linkPhase w n (testLink w n st l).1 ls).2 := by
        intro hmem
        obtain ⟨_, hno⟩ := ihm _ hmem
        rw [ht] at hno
        exact hno (List.mem_append.mpr (Or.inr (by simp)))
      constructor
      · rw [List.singleton_append, List.nodup_cons]
        exact ⟨hndr, ihn⟩
      · intro x hx
        rcases List.mem_append.mp hx with h | h
        · simp at h
          subst h
          constructor
          · apply linkPhase_tested_sub w n ls (testLink w n st l).1
            rw [ht]
            exact List.mem_append.mpr (Or.inr (by simp))
          · exact hfresh
        · obtain ⟨hx1, hx2⟩ := ihm x h
          refine ⟨hx1, fun hmem => hx2 ?_⟩
          rw [ht]
          exact List.mem_append.mpr (Or.inl hmem)

theorem linkPhase_class (w : World) (n : String) (ls : List Link) (hnr : NoRedirect w) :
    ∀ st : CrawlState,
      List.Sublist (classDests (linkPhase w n st ls).2) (probedNorms (linkPhase w n st ls).2) := by
  induction ls with
  | nil =>
    intro st
    simp [linkPhase, classDests, probedNorms]
  | cons l ls ih =>
    intro st
    have hev : (linkPhase w n st (l :: ls)).2 =
        (testLink w n st l).2 ++ (linkPhase w n (testLink w n st l).1 ls).2 := rfl
    rw [hev, classDests, probedNorms, List.filterMap_append, List.filterMap_append]
    apply List.Sublist.append
    · exact testLink_class w n st l (fun r hr => hnr l.href r hr)
    · exact ih (testLink w n st l).1

theorem buttonPhase_passCount (w : World) (n : String) (bs : List Button) (st : CrawlState) :
    passCount (buttonPhase w n st bs).2 = 0 := by
  rw [passCount, List.length_eq_zero, List.filter_eq_nil_iff]
  intro e he
  obtain ⟨lb, hlb⟩ := buttonPhase_events w n bs st e he
  subst hlb
  simp

theorem buttonPhase_probedNorms (w : World) (n : String) (bs : List Button) (st : CrawlState) :
    probedNorms (buttonPhase w n st bs).2 = [] ∧ classDests (buttonPhase w n st bs).2 = [] := by
  rw [probedNorms, classDests, List.filterMap_eq_nil_iff, List.filterMap_eq_nil_iff]
  constructor <;>
    · intro e he
      obtain ⟨lb, hlb⟩ := buttonPhase_events w n bs st e he
      subst hlb
      simp

theorem crawlPage_guard {w : World} {st : CrawlState} {u : String}
    (h : normalizeUrl u ∈ st.visitedUrls ∨ st.pageCount ≥ maxPages) :
    crawlPage w st u = (st, []) := by
  rw [crawlPage, if_pos h]

theorem crawlPage_err {w : World} {st : CrawlState} {u : String} {msg : String}
    (hg : ¬(normalizeUrl u ∈ st.visitedUrls ∨ st.pageCount ≥ maxPages))
    (hp : w.probe (normalizeUrl u) = ProbeOutcome.err msg) :
    crawlPage w st u =
      ({ st with
          visitedUrls := addSet st.visitedUrls (normalizeUrl u),
          pageCount := st.pageCount + 1,
          bugs := st.bugs ++ [pageLoadErrorIssue (normalizeUrl u) msg] },
       [Event.pagePass (normalizeUrl u)]) := by
  rw [crawlPage, if_neg hg]
  simp only [hp]

theorem crawlPage_error_page {w : World} {st : CrawlState} {u : String} {pd : ProbeResult}
    (hg : ¬(normalizeUrl u ∈ st.visitedUrls ∨ st.pageCount ≥ maxPages))
    (hp : w.probe (normalizeUrl u) = ProbeOutcome.ok pd)
    (he : pd.statusCode ≥ 400 ∨ pd.isErrorPage = true) :
    crawlPage w st u =
      ({ st with
          visitedUrls := addSet st.visitedUrls (normalizeUrl u),
          pageCount := st.pageCount + 1,
          bugs := st.bugs ++ [errorPageIssue (normalizeUrl u) pd] },
       [Event.pagePass (normalizeUrl u)]) := by
  rw [crawlPage, if_neg hg]
  simp only [hp]
  rw [if_pos he]

theorem crawlPage_blank {w : World} {st : CrawlState} {u : String} {pd : ProbeResult}
    (hg : ¬(normalizeUrl u ∈ st.visitedUrls ∨ st.pageCount ≥ maxPages))
    (hp : w.probe (normalizeUrl u) = ProbeOutcome.ok pd)
    (he : ¬(pd.statusCode ≥ 400 ∨ pd.isErrorPage = true))
    (hc : pd.hasContent = false) :
    crawlPage w st u =
      (if normalizeUrl u ∈ st.reportedBlankPages then
        { st with
            visitedUrls := addSet st.visitedUrls (normalizeUrl u),
            pageCount := st.pageCount + 1 }
       else
        { st with
            visitedUrls := addSet st.visitedUrls (normalizeUrl u),
            pageCount := st.pageCount + 1,
            bugs := st.bugs ++ [blankPageIssue (normalizeUrl u)] },
       [Event.pagePass (normalizeUrl u)]) := by
  rw [crawlPage, if_neg hg]
  simp only [hp]
  rw [if_neg he, if_pos hc]

theorem crawlPage_healthy {w : World} {st : CrawlState} {u : String} {pd : ProbeResult}
    (hg : ¬(normalizeUrl u ∈ st.visitedUrls ∨ st.pageCount ≥ maxPages))
    (hp : w.probe (normalizeUrl u) = ProbeOutcome.ok pd)
    (he : ¬(pd.statusCode ≥ 400 ∨ pd.isErrorPage = true))
    (hc : ¬pd.hasContent = false) :
    crawlPage w st u =
      ((buttonPhase w (normalizeUrl u)
          (linkPhase w (normalizeUrl u)
            { st with
                visitedUrls := addSet st.visitedUrls (normalizeUrl u),
                pageCount := st.pageCount + 1 } pd.links).1
          (pd.buttons.take 5)).1,
       Event.pagePass (normalizeUrl u) ::
         ((linkPhase w (normalizeUrl u)
            { st with
                visitedUrls := addSet st.visitedUrls (normalizeUrl u),
                pageCount := st.pageCount + 1 } pd.links).2 ++
          (buttonPhase w (normalizeUrl u)
            (linkPhase w (normalizeUrl u)
              { st with
                  visitedUrls := addSet st.visitedUrls (normalizeUrl u),
                  pageCount := st.pageCount + 1 } pd.links).1
            (pd.buttons.take 5)).2)) := by
  rw [crawlPage, if_neg hg]
  simp only [hp]
  rw [if_neg he, if_neg hc]

theorem crawlPage_cases (w : World) (st : CrawlState) (u : String) :
    crawlPage w st u = (st, []) ∨
    (normalizeUrl u ∉ st.visitedUrls ∧ st.pageCount < maxPages ∧
      (crawlPage w st u).1.visitedUrls = st.visitedUrls ++ [normalizeUrl u] ∧
      (crawlPage w st u).1.pageCount = st.pageCount + 1 ∧
      passCount (crawlPage w st u).2 = 1) := by
  by_cases hg : normalizeUrl u ∈ st.visitedUrls ∨ st.pageCount ≥ maxPages
  · exact Or.inl (crawlPage_guard hg)
  · right
    push_neg at hg
    obtain ⟨hv, hb⟩ := hg
    have hadd : addSet st.visitedUrls (normalizeUrl u) =
        st.visitedUrls ++ [normalizeUrl u] := addSet_of_not_mem hv
    have hg2 : ¬(normalizeUrl u ∈ st.visitedUrls ∨ st.pageCount ≥ maxPages) := by
      push_neg
      exact ⟨hv, hb⟩
    refine ⟨hv, hb, ?_⟩
    rcases hpr : w.probe (normalizeUrl u) with msg | pd
    · rw [crawlPage_err hg2 hpr]
      exact ⟨hadd, rfl, by simp [passCount]⟩
    · by_cases he : pd.statusCode ≥ 400 ∨ pd.isErrorPage = true
      · rw [crawlPage_error_page hg2 hpr he]
        exact ⟨hadd, rfl, by simp [passCount]⟩
      by_cases hc : pd.hasContent = false
      · rw [crawlPage_blank hg2 hpr he hc]
        split
        · exact ⟨hadd, rfl, by simp [passCount]⟩
        · exact ⟨hadd, rfl, by simp [passCount]⟩
      · rw [crawlPage_healthy hg2 hpr he hc]
        set st1 : CrawlState := { st with
          visitedUrls := addSet st.visitedUrls (normalizeUrl u),
          pageCount := st.pageCount + 1 } with hst1
        obtain ⟨hlv, hlc⟩ := linkPhase_visited w (normalizeUrl u) pd.links st1
        obtain ⟨hbq, hbv, hbp, hbt, hbr, hbc, _⟩ :=
          buttonPhase_frame w (normalizeUrl u) (pd.buttons.take 5)
            (linkPhase w (normalizeUrl u) st1 pd.links).1
        refine ⟨?_, ?_, ?_⟩
        · show (buttonPhase w (normalizeUrl u) _ _).1.visitedUrls = _
          rw [hbv, hlv, hst1, hadd]
        · show (buttonPhase w (normalizeUrl u) _ _).1.pageCount = _
          rw [hbc, hlc]
        · show passCount (Event.pagePass (normalizeUrl u) :: _) = 1
          rw [passCount, List.filter_cons]
          simp only [if_pos]
          rw [List.filter_append, List.length_cons, List.length_append]
          have a1 := linkPhase_passCount w (normalizeUrl u) pd.links st1
          have a2 := buttonPhase_passCount w (normalizeUrl u) (pd.buttons.take 5)
            (linkPhase w (normalizeUrl u) st1 pd.links).1
          rw [passCount] at a1 a2
          omega

theorem crawlPage_tested_sub (w : World) (st : CrawlState) (u : String) :
    st.testedLinks ⊆ (crawlPage w st u).1.testedLinks := by
  by_cases hg : normalizeUrl u ∈ st.visitedUrls ∨ st.pageCount ≥ maxPages
  · rw [crawlPage_guard hg]
    exact List.Subset.refl _
  rcases hpr : w.probe (normalizeUrl u) with msg | pd
  · rw [crawlPage_err hg hpr]
    exact List.Subset.refl _
  by_cases he : pd.statusCode ≥ 400 ∨ pd.isErrorPage = true
  · rw [crawlPage_error_page hg hpr he]
    exact List.Subset.refl _
  by_cases hc : pd.hasContent = false
  · rw [crawlPage_blank hg hpr he hc]
    split <;> exact List.Subset.refl _
  · rw [crawlPage_healthy hg hpr he hc]
    obtain ⟨_, _, _, hbt, _, _, _⟩ :=
      buttonPhase_frame w (normalizeUrl u) (pd.buttons.take 5)
        (linkPhase w (normalizeUrl u)
          { st with visitedUrls := addSet st.visitedUrls (normalizeUrl u),
                    pageCount := st.pageCount + 1 } pd.links).1
    intro y hy
    rw [hbt]
    exact linkPhase_tested_sub w (normalizeUrl u) pd.links _ hy

theorem crawlPage_prob_mono (w : World) (st : CrawlState) (u : String) :
    st.problematicUrls ⊆ (crawlPage w st u).1.problematicUrls := by
  by_cases hg : normalizeUrl u ∈ st.visitedUrls ∨ st.pageCount ≥ maxPages
  · rw [crawlPage_guard hg]
    exact List.Subset.refl _
  rcases hpr : w.probe (normalizeUrl u) with msg | pd
  · rw [crawlPage_err hg hpr]
    exact List.Subset.refl _
  by_cases he : pd.statusCode ≥ 400 ∨ pd.isErrorPage = true
  · rw [crawlPage_error_page hg hpr he]
    exact List.Subset.refl _
  by_cases hc : pd.hasContent = false
  · rw [crawlPage_blank hg hpr he hc]
    split <;> exact List.Subset.refl _
  · rw [crawlPage_healthy hg hpr he hc]
    obtain ⟨_, _, hbp, _, _, _, _⟩ :=
      buttonPhase_frame w (normalizeUrl u) (pd.buttons.take 5)
        (linkPhase w (normalizeUrl u)
          { st with visitedUrls := addSet st.visitedUrls (normalizeUrl u),
                    pageCount := st.pageCount + 1 } pd.links).1
    intro y hy
    rw [hbp]
    exact linkPhase_prob_mono w (normalizeUrl u) pd.links _ hy

theorem crawlPage_visited_in (w : World) (st : CrawlState) (u : String) :
    ∀ v ∈ (crawlPage w st u).1.visitedUrls, v ∈ st.visitedUrls ∨ v = normalizeUrl u := by
  rcases crawlPage_cases w st u with h | ⟨_, _, hv, _, _⟩
  · rw [h]
    exact fun v hv => Or.inl hv
  · rw [hv]
    intro v hv2
    rcases List.mem_append.mp hv2 with h2 | h2
    · exact Or.inl h2
    · simp at h2
      exact Or.inr h2

theorem crawlPage_qinv (w : World) (st : CrawlState) (u : String)
    (h1 : st.urlQueue.Nodup) (h2 : ∀ v ∈ st.problematicUrls, v ∉ st.urlQueue) :
    (crawlPage w st u).1.urlQueue.Nodup ∧
    (∀ v ∈ (crawlPage w st u).1.problematicUrls, v ∉ (crawlPage w st u).1.urlQueue) := by
  by_cases hg : normalizeUrl u ∈ st.visitedUrls ∨ st.pageCount ≥ maxPages
  · rw [crawlPage_guard hg]
    exact ⟨h1, h2⟩
  rcases hpr : w.probe (normalizeUrl u) with msg | pd
  · rw [crawlPage_err hg hpr]
    exact ⟨h1, h2⟩
  by_cases he : pd.statusCode ≥ 400 ∨ pd.isErrorPage = true
  · rw [crawlPage_error_page hg hpr he]
    exact ⟨h1, h2⟩
  by_cases hc : pd.hasContent = false
  · rw [crawlPage_blank hg hpr he hc]
    split <;> exact ⟨h1, h2⟩
  · rw [crawlPage_healthy hg hpr he hc]
    obtain ⟨hbq, _, hbp, _, _, _, _⟩ :=
      buttonPhase_frame w (normalizeUrl u) (pd.buttons.take 5)
        (linkPhase w (normalizeUrl u)
          { st with visitedUrls := addSet st.visitedUrls (normalizeUrl u),
                    pageCount := st.pageCount + 1 } pd.links).1
    obtain ⟨g1, g2⟩ := linkPhase_qinv w (normalizeUrl u) pd.links
      { st with visitedUrls := addSet st.visitedUrls (normalizeUrl u),
                pageCount := st.pageCount + 1 } h1 h2
    constructor
    · rw [hbq]
      exact g1
    · intro v hv
      rw [hbq]
      rw [hbp] at hv
      exact g2 v hv

theorem crawlPage_qfl (w : World) (st : CrawlState) (u : String) (b : String)
    (hg2 : GoodWorld w) (h : QueueFromLinks b st) :
    QueueFromLinks b (crawlPage w st u).1 := by
  by_cases hg : normalizeUrl u ∈ st.visitedUrls ∨ st.pageCount ≥ maxPages
  · rw [crawlPage_guard hg]
    exact h
  rcases hpr : w.probe (normalizeUrl u) with msg | pd
  · rw [crawlPage_err hg hpr]
    exact h
  by_cases he : pd.statusCode ≥ 400 ∨ pd.isErrorPage = true
  · rw [crawlPage_error_page hg hpr he]
    exact h
  by_cases hc : pd.hasContent = false
  · rw [crawlPage_blank hg hpr he hc]
    split <;> exact h
  · rw [crawlPage_healthy hg hpr he hc]
    obtain ⟨hbq, _, _, hbt, _, _, _⟩ :=
      buttonPhase_frame w (normalizeUrl u) (pd.buttons.take 5)
        (linkPhase w (normalizeUrl u)
          { st with visitedUrls := addSet st.visitedUrls (normalizeUrl u),
                    pageCount := st.pageCount + 1 } pd.links).1
    intro v hv
    rw [hbq] at hv
    have := linkPhase_qfl w (normalizeUrl u) pd.links b hg2
      { st with visitedUrls := addSet st.visitedUrls (normalizeUrl u),
                pageCount := st.pageCount + 1 } h v hv
    rcases this with ⟨ht, hf⟩ | hb2
    · left
      refine ⟨?_, hf⟩
      rw [hbt]
      exact ht
    · exact Or.inr hb2

theorem crawlPage_probed (w : World) (st : CrawlState) (u : String) :
    (probedNorms (crawlPage w st u).2).Nodup ∧
    (∀ x ∈ probedNorms (crawlPage w st u).2,
      x ∈ (crawlPage w st u).1.testedLinks ∧ x ∉ st.testedLinks) := by
  by_cases hg : normalizeUrl u ∈ st.visitedUrls ∨ st.pageCount ≥ maxPages
  · rw [crawlPage_guard hg]
    exact ⟨by simp [probedNorms], by intro x hx; simp [probedNorms] at hx⟩
  rcases hpr : w.probe (normalizeUrl u) with msg | pd
  · rw [crawlPage_err hg hpr]
    exact ⟨by simp [probedNorms], by intro x hx; simp [probedNorms] at hx⟩
  by_cases he : pd.statusCode ≥ 400 ∨ pd.isErrorPage = true
  · rw [crawlPage_error_page hg hpr he]
    exact ⟨by simp [probedNorms], by intro x hx; simp [probedNorms] at hx⟩
  by_cases hc : pd.hasContent = false
  · rw [crawlPage_blank hg hpr he hc]
    split <;>
      exact ⟨by simp [probedNorms], by intro x hx; simp [probedNorms] at hx⟩
  · rw [crawlPage_healthy hg hpr he hc]
    set st1 : CrawlState := { st with
      visitedUrls := addSet st.visitedUrls (normalizeUrl u),
      pageCount := st.pageCount + 1 } with hst1
    obtain ⟨hbn, hbc⟩ := buttonPhase_probedNorms w (normalizeUrl u) (pd.buttons.take 5)
      (linkPhase w (normalizeUrl u) st1 pd.links).1
    obtain ⟨g1, g2⟩ := linkPhase_probed w (normalizeUrl u) pd.links st1
    obtain ⟨_, _, _, hbt, _, _, _⟩ :=
      buttonPhase_frame w (normalizeUrl u) (pd.buttons.take 5)
        (linkPhase w (normalizeUrl u) st1 pd.links).1
    have hpn : probedNorms (Event.pagePass (normalizeUrl u) ::
        ((linkPhase w (normalizeUrl u) st1 pd.links).2 ++
         (buttonPhase w (normalizeUrl u)
           (linkPhase w (normalizeUrl u) st1 pd.links).1 (pd.buttons.take 5)).2)) =
        probedNorms (linkPhase w (normalizeUrl u) st1 pd.links).2 := by
      rw [probedNorms, List.filterMap_cons, List.filterMap_append]
      rw [probedNorms] at hbn
      rw [hbn]
      simp [probedNorms]
    rw [hpn]
    constructor
    · exact g1
    · intro x hx
      obtain ⟨hx1, hx2⟩ := g2 x hx
      refine ⟨?_, hx2⟩
      rw [hbt]
      exact hx1

theorem crawlPage_class (w : World) (st : CrawlState) (u : String) (hnr : NoRedirect w) :
    List.Sublist (classDests (crawlPage w st u).2) (probedNorms (crawlPage w st u).2) := by
  by_cases hg : normalizeUrl u ∈ st.visitedUrls ∨ st.pageCount ≥ maxPages
  · rw [crawlPage_guard hg]
    simp [probedNorms, classDests]
  rcases hpr : w.probe (normalizeUrl u) with msg | pd
  · rw [crawlPage_err hg hpr]
    simp [probedNorms, classDests]
  by_cases he : pd.statusCode ≥ 400 ∨ pd.isErrorPage = true
  · rw [crawlPage_error_page hg hpr he]
    simp [probedNorms, classDests]
  by_cases hc : pd.hasContent = false
  · rw [crawlPage_blank hg hpr he hc]
    split <;> simp [probedNorms, classDests]
  · rw [crawlPage_healthy hg hpr he hc]
    set st1 : CrawlState := { st with
      visitedUrls := addSet st.visitedUrls (normalizeUrl u),
      pageCount := st.pageCount + 1 } with hst1
    obtain ⟨hbn, hbc⟩ := buttonPhase_probedNorms w (normalizeUrl u) (pd.buttons.take 5)
      (linkPhase w (normalizeUrl u) st1 pd.links).1
    rw [probedNorms, classDests, List.filterMap_cons, List.filterMap_cons,
      List.filterMap_append, List.filterMap_append]
    simp only []
    rw [probedNorms] at hbn
    rw [classDests] at hbc
    rw [hbn, hbc]
    simp only [List.append_nil]
    exact linkPhase_class w (normalizeUrl u) pd.links hnr st1

theorem loopStep_inv {w : World} {s s2 : CrawlState} (h : LoopStep w s s2)
    (hi : StateInv s) : StateInv s2 := by
  obtain ⟨i1, i2, i3, i4, i5⟩ := hi
  cases h with
  | skip next rest hq hb hs =>
    refine ⟨?_, ?_, i3, i4, i5⟩
    · rw [hq] at i1
      exact i1.of_cons
    · intro u hu
      have := i2 u hu
      rw [hq] at this
      intro hmem
      exact this (List.mem_cons_of_mem _ hmem)
  | crawl next rest hq hb hs =>
    have hi1 : ({ s with urlQueue := rest } : CrawlState).urlQueue.Nodup := by
      rw [hq] at i1
      exact i1.of_cons
    have hi2 : ∀ u ∈ ({ s with urlQueue := rest } : CrawlState).problematicUrls,
        u ∉ ({ s with urlQueue := rest } : CrawlState).urlQueue := by
      intro u hu
      have := i2 u hu
      rw [hq] at this
      intro hmem
      exact this (List.mem_cons_of_mem _ hmem)
    obtain ⟨q1, q2⟩ := crawlPage_qinv w { s with urlQueue := rest } next hi1 hi2
    refine ⟨q1, q2, ?_, ?_, ?_⟩
    · rcases crawlPage_cases w { s with urlQueue := rest } next with h | ⟨hv, _, hveq, _, _⟩
      · rw [h]
        exact i3
      · rw [hveq]
        exact nodup_append_singleton i3 hv
    · rcases crawlPage_cases w { s with urlQueue := rest } next with h | ⟨hv, _, hveq, hpc, _⟩
      · rw [h]
        exact i4
      · rw [hveq, hpc, List.length_append]
        simp [i4]
    · rcases crawlPage_cases w { s with urlQueue := rest } next with h | ⟨_, hb2, _, hpc, _⟩
      · rw [h]
        exact i5
      · rw [hpc]
        exact hb2

theorem loopStep_tested_sub {w : World} {s s2 : CrawlState} (h : LoopStep w s s2) :
    s.testedLinks ⊆ s2.testedLinks := by
  cases h with
  | skip next rest hq hb hs => exact List.Subset.refl _
  | crawl next rest hq hb hs => exact crawlPage_tested_sub w { s with urlQueue := rest } next

theorem loopStep_prob_mono {w : World} {s s2 : CrawlState} (h : LoopStep w s s2) :
    s.problematicUrls ⊆ s2.problematicUrls := by
  cases h with
  | skip next rest hq hb hs => exact List.Subset.refl _
  | crawl next rest hq hb hs => exact crawlPage_prob_mono w { s with urlQueue := rest } next

theorem loopStep_visited_in {w : World} {s s2 : CrawlState} (h : LoopStep w s s2) :
    ∀ v ∈ s2.visitedUrls, v ∈ s.visitedUrls ∨
      (v ∉ s.testedLinks ∧ v ∉ s.problematicUrls) := by
  cases h with
  | skip next rest hq hb hs => exact fun v hv => Or.inl hv
  | crawl next rest hq hb hs =>
    intro v hv
    rcases crawlPage_visited_in w { s with urlQueue := rest } next v hv with h2 | h2
    · exact Or.inl h2
    · right
      rw [h2]
      push_neg at hs
      exact hs

theorem steps_inv {w : World} {s s2 : CrawlState} (h : Steps w s s2) (hi : StateInv s) :
    StateInv s2 := by
  induction h with
  | refl => exact hi
  | tail h1 h2 ih => exact loopStep_inv h2 ih

theorem steps_tested_sub {w : World} {s s2 : CrawlState} (h : Steps w s s2) :
    s.testedLinks ⊆ s2.testedLinks := by
  induction h with
  | refl => exact List.Subset.refl _
  | tail h1 h2 ih => exact fun y hy => loopStep_tested_sub h2 (ih hy)

theorem steps_prob_mono {w : World} {s s2 : CrawlState} (h : Steps w s s2) :
    s.problematicUrls ⊆ s2.problematicUrls := by
  induction h with
  | refl => exact List.Subset.refl _
  | tail h1 h2 ih => exact fun y hy => loopStep_prob_mono h2 (ih hy)

theorem steps_visited_keep {w : World} {s s2 : CrawlState} (h : Steps w s s2)
    {u : String} (hu : u ∈ s.testedLinks ∨ u ∈ s.problematicUrls)
    (hv : u ∉ s.visitedUrls) : u ∉ s2.visitedUrls := by
  induction h with
  | refl => exact hv
  | tail h1 h2 ih =>
    rename_i b c
    intro hmem
    rcases loopStep_visited_in h2 u hmem with h3 | ⟨h4, h5⟩
    · exact ih h3
    · rcases hu with h6 | h6
      · exact h4 (steps_tested_sub h1 h6)
      · exact h5 (steps_prob_mono h1 h6)

theorem passCount_skip_cons (u : String) (l : List Event) :
    passCount (Event.skip u :: l) = passCount l := by
  simp [passCount]

theorem passCount_append (l1 l2 : List Event) :
    passCount (l1 ++ l2) = passCount l1 + passCount l2 := by
  simp [passCount, List.filter_append]

theorem steps_runLoop (w : World) : ∀ st : CrawlState, Steps w st (runLoop w st).1 := by
  intro st
  induction st using runLoop.induct w with
  | case1 st hq =>
    rw [runLoop_nil hq]
    exact Relation.ReflTransGen.refl
  | case2 st next rest hq hb hs ih =>
    rw [runLoop_skip hq hb hs]
    exact Relation.ReflTransGen.head (LoopStep.skip st next rest hq hb hs) ih
  | case3 st next rest hq hb hs c ih =>
    rw [runLoop_crawl hq hb hs]
    exact Relation.ReflTransGen.head (LoopStep.crawl st next rest hq hb hs) ih
  | case4 st next rest hq hb =>
    rw [runLoop_stop hq hb]
    exact Relation.ReflTransGen.refl

theorem runLoop_pass (w : World) : ∀ st : CrawlState,
    (runLoop w st).1.pageCount = st.pageCount + passCount (runLoop w st).2 := by
  intro st
  induction st using runLoop.induct w with
  | case1 st hq =>
    rw [runLoop_nil hq]
    simp [passCount]
  | case2 st next rest hq hb hs ih =>
    rw [runLoop_skip hq hb hs]
    show (runLoop w { st with urlQueue := rest }).1.pageCount =
      st.pageCount + passCount (Event.skip (normalizeUrl next) ::
        (runLoop w { st with urlQueue := rest }).2)
    rw [passCount_skip_cons]
    exact ih
  | case3 st next rest hq hb hs c ih =>
    rw [runLoop_crawl hq hb hs]
    show (runLoop w (crawlPage w { st with urlQueue := rest } next).1).1.pageCount =
      st.pageCount + passCount ((crawlPage w { st with urlQueue := rest } next).2 ++
        (runLoop w (crawlPage w { st with urlQueue := rest } next).1).2)
    rw [passCount_append]
    have ih2 : (runLoop w (crawlPage w { st with urlQueue := rest } next).1).1.pageCount =
        (crawlPage w { st with urlQueue := rest } next).1.pageCount +
        passCount (runLoop w (crawlPage w { st with urlQueue := rest } next).1).2 := ih
    rw [ih2]
    rcases crawlPage_cases w { st with urlQueue := rest } next with h | ⟨_, _, _, hpc, hev⟩
    · rw [h]
      show st.pageCount + passCount (runLoop w { st with urlQueue := rest }).2 =
        st.pageCount + (passCount ([] : List Event) +
          passCount (runLoop w { st with urlQueue := rest }).2)
      simp [passCount]
    · rw [hpc, hev]
      show st.pageCount + 1 + _ = st.pageCount + (1 + _)
      omega
  | case4 st next rest hq hb =>
    rw [runLoop_stop hq hb]
    simp [passCount]

theorem runLoop_probed (w : World) : ∀ st : CrawlState,
    (probedNorms (runLoop w st).2).Nodup ∧
    (∀ x ∈ probedNorms (runLoop w st).2,
      x ∈ (runLoop w st).1.testedLinks ∧ x ∉ st.testedLinks) := by
  intro st
  induction st using runLoop.induct w with
  | case1 st hq =>
    rw [runLoop_nil hq]
    exact ⟨by simp [probedNorms], by intro x hx; simp [probedNorms] at hx⟩
  | case2 st next rest hq hb hs ih =>
    rw [runLoop_skip hq hb hs]
    obtain ⟨ihn, ihm⟩ := ih
    have hpn : probedNorms (Event.skip (normalizeUrl next) ::
        (runLoop w { st with urlQueue := rest }).2) =
        probedNorms (runLoop w { st with urlQueue := rest }).2 := by
      rw [probedNorms, probedNorms, List.filterMap_cons]
    show (probedNorms (Event.skip (normalizeUrl next) ::
        (runLoop w { st with urlQueue := rest }).2)).Nodup ∧ _
    rw [hpn]
    exact ⟨ihn, ihm⟩
  | case3 st next rest hq hb hs c ih =>
    rw [runLoop_crawl hq hb hs]
    have ih2 : (probedNorms (runLoop w (crawlPage w { st with urlQueue := rest } next).1).2).Nodup ∧
        (∀ x ∈ probedNorms (runLoop w (crawlPage w { st with urlQueue := rest } next).1).2,
          x ∈ (runLoop w (crawlPage w { st with urlQueue := rest } next).1).1.testedLinks ∧
          x ∉ (crawlPage w { st with urlQueue := rest } next).1.testedLinks) := ih
    obtain ⟨ihn, ihm⟩ := ih2
    obtain ⟨cn, cm⟩ := crawlPage_probed w { st with urlQueue := rest } next
    show (probedNorms ((crawlPage w { st with urlQueue := rest } next).2 ++
        (runLoop w (crawlPage w { st with urlQueue := rest } next).1).2)).Nodup ∧ _
    rw [probedNorms, List.filterMap_append]
    have hsub : (crawlPage w { st with urlQueue := rest } next).1.testedLinks ⊆
        (runLoop w (crawlPage w { st with urlQueue := rest } next).1).1.testedLinks :=
      steps_tested_sub (steps_runLoop w _)
    constructor
    · rw [List.nodup_append]
      refine ⟨cn, ihn, ?_⟩
      intro x hx1 hx2
      have h1 := (cm x hx1).1
      have h2 := (ihm x hx2).2
      exact h2 h1
    · intro x hx
      rcases List.mem_append.mp hx with h1 | h1
      · obtain ⟨ha, hb2⟩ := cm x h1
        exact ⟨hsub ha, hb2⟩
      · obtain ⟨ha, hb2⟩ := ihm x h1
        refine ⟨ha, fun hmem => hb2 ?_⟩
        exact crawlPage_tested_sub w { st with urlQueue := rest } next hmem
  | case4 st next rest hq hb =>
    rw [runLoop_stop hq hb]
    exact ⟨by simp [probedNorms], by intro x hx; simp [probedNorms] at hx⟩

theorem runLoop_class (w : World) (hnr : NoRedirect w) : ∀ st : CrawlState,
    List.Sublist (classDests (runLoop w st).2) (probedNorms (runLoop w st).2) := by
  intro st
  induction st using runLoop.induct w with
  | case1 st hq =>
    rw [runLoop_nil hq]
    simp [probedNorms, classDests]
  | case2 st next rest hq hb hs ih =>
    rw [runLoop_skip hq hb hs]
    show List.Sublist (classDests (Event.skip (normalizeUrl next) ::
      (runLoop w { st with urlQueue := rest }).2)) _
    rw [classDests, probedNorms, List.filterMap_cons, List.filterMap_cons]
    exact ih
  | case3 st next rest hq hb hs c ih =>
    rw [runLoop_crawl hq hb hs]
    show List.Sublist (classDests ((crawlPage w { st with urlQueue := rest } next).2 ++
      (runLoop w (crawlPage w { st with urlQueue := rest } next).1).2)) _
    rw [classDests, probedNorms, List.filterMap_append, List.filterMap_append]
    exact List.Sublist.append (crawlPage_class w _ next hnr) ih
  | case4 st next rest hq hb =>
    rw [runLoop_stop hq hb]
    simp [probedNorms, classDests]

theorem loopStep_c4 {w : World} {b : String} {s s2 : CrawlState}
    (hg : GoodWorld w) (h : LoopStep w s s2)
    (hq4 : QueueFromLinks b s) (hv4 : ∀ v ∈ s.visitedUrls, v = normalizeUrl b) :
    QueueFromLinks b s2 ∧ ∀ v ∈ s2.visitedUrls, v = normalizeUrl b := by
  cases h with
  | skip next rest hq hb hs =>
    constructor
    · intro u hu
      apply hq4
      rw [hq]
      exact List.mem_cons_of_mem _ hu
    · exact hv4
  | crawl next rest hq hb hs =>
    have hpop : QueueFromLinks b { s with urlQueue := rest } := by
      intro u hu
      apply hq4
      rw [hq]
      exact List.mem_cons_of_mem _ hu
    have hnext : next = b := by
      rcases hq4 next (by rw [hq]; exact List.mem_cons_self _ _) with ⟨ht, hf⟩ | hb2
      · refine absurd (Or.inl ?_) hs
        rw [hf]
        exact ht
      · exact hb2
    constructor
    · exact crawlPage_qfl w { s with urlQueue := rest } next b hg hpop
    · intro v hv
      rcases crawlPage_visited_in w { s with urlQueue := rest } next v hv with h2 | h2
      · exact hv4 v h2
      · rw [h2, hnext]

theorem steps_c4 {w : World} {b : String} {s s2 : CrawlState}
    (hg : GoodWorld w) (h : Steps w s s2)
    (hq4 : QueueFromLinks b s) (hv4 : ∀ v ∈ s.visitedUrls, v = normalizeUrl b) :
    QueueFromLinks b s2 ∧ ∀ v ∈ s2.visitedUrls, v = normalizeUrl b := by
  induction h with
  | refl => exact ⟨hq4, hv4⟩
  | tail h1 h2 ih => exact loopStep_c4 hg h2 ih.1 ih.2

theorem length_le_one_of_all_eq {l : List String} {a : String}
    (hn : l.Nodup) (h : ∀ v ∈ l, v = a) : l.length ≤ 1 := by
  rcases l with _ | ⟨x, _ | ⟨y, t⟩⟩
  · simp
  · simp
  · exfalso
    have hx : x = a := h x (by simp)
    have hy : y = a := h y (by simp)
    rw [List.nodup_cons] at hn
    exact hn.1 (by simp [hx, hy])

theorem initState_inv (seed : String) : StateInv (initState seed) := by
  refine ⟨by simp [initState], by simp [initState], by simp [initState],
    by simp [initState], by simp [initState, maxPages]⟩

theorem wHealthy_good : GoodWorld wHealthy := by
  intro href r h
  by_cases hh : href = "https://s.com"
  · subst hh
    rw [show wHealthy.probe "https://s.com" =
      ProbeOutcome.ok (pdPlain "https://s.com") from by decide] at h
    injection h with h2
    subst h2
    constructor <;> decide
  · simp only [wHealthy] at h
    rw [if_neg hh] at h
    cases h

theorem wHealthy_seed : HealthySeed wHealthy "https://s.com" := by
  refine ⟨pdPlain "https://s.com", ?_, by decide, by decide, by decide⟩
  decide

/-- C1: in every crawl run the page counter never exceeds the page budget at
any reachable point of the main loop, and the pagesVisited field of the final
report equals the size of visited, the final page counter, and the number of
full-page classification passes in the trace. -/
theorem budget_respected (w : World) (seed dur : String) :
    (∀ s, Steps w (initState seed) s → s.pageCount ≤ maxPages) ∧
    (runCrawler w seed dur).pagesVisited = (runEnd w seed).pageCount ∧
    (runCrawler w seed dur).pagesVisited = passCount (runEvents w seed) ∧
    (runEnd w seed).visitedUrls.Nodup := by
  have hinit := initState_inv seed
  have hfin : StateInv (runEnd w seed) := steps_inv (steps_runLoop w _) hinit
  obtain ⟨f1, f2, f3, f4, f5⟩ := hfin
  refine ⟨?_, ?_, ?_, f3⟩
  · intro s hs
    exact (steps_inv hs hinit).2.2.2.2
  · exact f4
  · show (runEnd w seed).visitedUrls.length = passCount (runEvents w seed)
    rw [f4]
    have hp := runLoop_pass w (initState seed)
    have h0 : (initState seed).pageCount = 0 := rfl
    rw [h0] at hp
    simpa using hp

theorem budget_respected_witness :
    (initState "https://s.com").pageCount ≤ maxPages ∧
    (runCrawler wProbeFail "https://s.com" "0.0").pagesVisited =
      (runEnd wProbeFail "https://s.com").pageCount :=
  ⟨(budget_respected wProbeFail "https://s.com" "0.0").1 (initState "https://s.com")
      Relation.ReflTransGen.refl,
    (budget_respected wProbeFail "https://s.com" "0.0").2.1⟩

/-- C2: the blacklist is monotone. The structural invariant holds initially
and is preserved by every loop iteration; at the link-tester granularity a
URL in problematicUrls is never in the queue; and along any later steps a
blacklisted URL stays blacklisted, stays out of the queue, and is never
newly promoted to visited. -/
theorem monotonic_blacklist :
    (∀ seed, StateInv (initState seed)) ∧
    (∀ (w : World) (s s2 : CrawlState), LoopStep w s s2 → StateInv s → StateInv s2) ∧
    (∀ (w : World) (n : String) (st : CrawlState) (l : Link) (u : String),
      st.urlQueue.Nodup → (∀ v ∈ st.problematicUrls, v ∉ st.urlQueue) →
      u ∈ (testLink w n st l).1.problematicUrls → u ∉ (testLink w n st l).1.urlQueue) ∧
    (∀ (w : World) (s s2 : CrawlState) (u : String), Steps w s s2 → StateInv s →
      u ∈ s.problematicUrls →
      u ∈ s2.problematicUrls ∧ u ∉ s2.urlQueue ∧
      (u ∉ s.visitedUrls → u ∉ s2.visitedUrls)) := by
  refine ⟨initState_inv, fun w s s2 h hi => loopStep_inv h hi, ?_, ?_⟩
  · intro w n st l u h1 h2 hu
    exact (testLink_qinv w n st l h1 h2).2 u hu
  · intro w s s2 u hsteps hi hu
    have hp : u ∈ s2.problematicUrls := steps_prob_mono hsteps hu
    have hi2 := steps_inv hsteps hi
    exact ⟨hp, hi2.2.1 u hp, fun hv => steps_visited_keep hsteps (Or.inr hu) hv⟩

theorem monotonic_blacklist_witness :
    StateInv cexBlacklistState ∧ "https://p.com" ∉ cexBlacklistState.urlQueue :=
  ⟨by decide, (monotonic_blacklist.2.2.2 wProbeFail cexBlacklistState cexBlacklistState
      "https://p.com" Relation.ReflTransGen.refl (by decide) (by decide)).2.1⟩

/-- C3 counterexample: in the wDupDest run two different link hrefs redirect
to the same final URL, so the same destination is classified twice (two
BROKEN_LINK issues with the same destination), refuting the claim that no
destination appears more than once across link-test classifications. -/
theorem no_duplicate_link_tests_cex :
    classDests (runEvents wDupDest "https://s.com") =
      ["https://e.com/z", "https://e.com/z"] ∧
    ¬ (classDests (runEvents wDupDest "https://s.com")).Nodup ∧
    ((runEnd wDupDest "https://s.com").bugs.filter
      (fun b => b.destination = some "https://e.com/z" ∧
        b.type = IssueType.BROKEN_LINK)).length = 2 := by
  have e1 : (initState "https://s.com").urlQueue = "https://s.com" :: ([] : List String) := by
    decide
  have hrun : runLoop wDupDest (initState "https://s.com") =
      ({ visitedUrls := ["https://s.com"],
         testedLinks := ["https://e.com/a", "https://e.com/b"],
         problematicUrls := ["https://e.com/z"],
         reportedBlankPages := [],
         urlQueue := [],
         bugs := [brokenLinkIssue "https://s.com" { text := "a", href := "https://e.com/a" }
                    "https://e.com/z" 404,
                  brokenLinkIssue "https://s.com" { text := "b", href := "https://e.com/b" }
                    "https://e.com/z" 404],
         pageCount := 1 },
       [Event.pagePass "https://s.com", Event.linkProbe "https://e.com/a",
        Event.linkClass "https://e.com/z", Event.linkProbe "https://e.com/b",
        Event.linkClass "https://e.com/z"]) := by
    rw [runLoop_crawl e1 (by decide) (by decide)]
    rw [runLoop_nil (show (crawlPage wDupDest
      { initState "https://s.com" with urlQueue := [] } "https://s.com").1.urlQueue = []
      from by decide)]
    decide
  refine ⟨?_, ?_, ?_⟩
  · show classDests (runLoop wDupDest (initState "https://s.com")).2 = _
    rw [hrun]
    decide
  · show ¬ (classDests (runLoop wDupDest (initState "https://s.com")).2).Nodup
    rw [hrun]
    decide
  · show ((runLoop wDupDest (initState "https://s.com")).1.bugs.filter _).length = 2
    rw [hrun]
    decide

/-- C3 amended: the deduplication is keyed on the normalization of the href,
not on the final destination. A link whose normalized href was already tested
is skipped without any classification, testedLinks grows by at most one entry
per link examined and never shrinks, the normalized hrefs probed in a run are
pairwise distinct, and when no probe redirects across normalization the
classified destinations are pairwise distinct as well. -/
theorem no_duplicate_link_tests_amended :
    (∀ (w : World) (n : String) (st : CrawlState) (l : Link),
      normalizeUrl l.href ∈ st.testedLinks → testLink w n st l = (st, [])) ∧
    (∀ (w : World) (n : String) (st : CrawlState) (l : Link),
      st.testedLinks ⊆ (testLink w n st l).1.testedLinks ∧
      ((testLink w n st l).1.testedLinks = st.testedLinks ∨
       (testLink w n st l).1.testedLinks = st.testedLinks ++ [normalizeUrl l.href])) ∧
    (∀ (w : World) (seed : String), (probedNorms (runEvents w seed)).Nodup) ∧
    (∀ (w : World) (seed : String), NoRedirect w →
      (classDests (runEvents w seed)).Nodup) := by
  refine ⟨fun w n st l h => testLink_skip h, ?_, ?_, ?_⟩
  · intro w n st l
    refine ⟨testLink_tested_sub w n st l, ?_⟩
    rcases testLink_tested w n st l with ⟨h, _⟩ | ⟨_, h⟩
    · exact Or.inl h
    · exact Or.inr h
  · intro w seed
    exact (runLoop_probed w (initState seed)).1
  · intro w seed hnr
    exact ((runLoop_probed w (initState seed)).1).sublist (runLoop_class w hnr (initState seed))

theorem no_duplicate_link_tests_amended_witness :
    normalizeUrl "https://e.com/a" ∈ cexTestedState.testedLinks ∧
    testLink wProbeFail "https://s.com" cexTestedState
      { text := "a", href := "https://e.com/a" } = (cexTestedState, []) ∧
    (classDests (runEvents wProbeFail "https://s.com")).Nodup :=
  ⟨by decide,
   no_duplicate_link_tests_amended.1 wProbeFail "https://s.com" cexTestedState
     { text := "a", href := "https://e.com/a" } (by decide),
   no_duplicate_link_tests_amended.2.2.2 wProbeFail "https://s.com"
     (fun href r h => ProbeOutcome.noConfusion h)⟩

/-- C4 counterexample: with a healthy seed whose single link redirects to a
different URL, the enqueued final URL is not in testedLinks, so it is crawled
as a second full page: pagesVisited is 2, refuting the claim that pagesVisited
is at most 1 for every run with a healthy seed. -/
theorem link_discovery_cex :
    (wRedirect.probe (normalizeUrl (roughTrim "https://s.com")) =
      ProbeOutcome.ok
        { title := "Home", finalUrl := "https://s.com", statusCode := 200,
          hasContent := true, isErrorPage := false,
          links := [{ text := "a", href := "https://e.com/q" }], buttons := [] }) ∧
    (runCrawler wRedirect "https://s.com" "0.0").pagesVisited = 2 ∧
    "https://r.com/z" ∈ (runEnd wRedirect "https://s.com").visitedUrls ∧
    "https://r.com/z" ≠ normalizeUrl (roughTrim "https://s.com") := by
  have e1 : (initState "https://s.com").urlQueue = "https://s.com" :: ([] : List String) := by
    decide
  have hrun : (runLoop wRedirect (initState "https://s.com")).1.visitedUrls =
      ["https://s.com", "https://r.com/z"] := by
    rw [runLoop_crawl e1 (by decide) (by decide)]
    have e2 : (crawlPage wRedirect { initState "https://s.com" with urlQueue := [] }
        "https://s.com").1.urlQueue = "https://r.com/z" :: ([] : List String) := by decide
    rw [runLoop_crawl e2 (by decide) (by decide)]
    rw [runLoop_nil (show (crawlPage wRedirect
      { (crawlPage wRedirect { initState "https://s.com" with urlQueue := [] }
          "https://s.com").1 with urlQueue := [] } "https://r.com/z").1.urlQueue = []
      from by decide)]
    decide
  refine ⟨by decide, ?_, ?_, by decide⟩
  · show (runEnd wRedirect "https://s.com").visitedUrls.length = 2
    rw [runEnd, hrun]
    rfl
  · show "https://r.com/z" ∈ (runLoop wRedirect (initState "https://s.com")).1.visitedUrls
    rw [hrun]
    decide

/-- C4 amended: when no link probe redirects across normalization and final
URLs are normalization fixed points, every queue entry other than the seed
entry is already in testedLinks, so the main loop discards every
link-discovered URL, visited never contains anything but the normalized seed,
and pagesVisited is at most 1. -/
theorem link_tested_never_crawled (w : World) (seed dur : String)
    (hg : GoodWorld w) (hh : HealthySeed w seed) :
    (∀ s, Steps w (initState seed) s →
      (∀ u ∈ s.urlQueue, (u ∈ s.testedLinks ∧ normalizeUrl u = u) ∨ u = roughTrim seed) ∧
      (∀ v ∈ s.visitedUrls, v = normalizeUrl (roughTrim seed))) ∧
    (∀ v ∈ (runEnd w seed).visitedUrls, v = normalizeUrl (roughTrim seed)) ∧
    (runCrawler w seed dur).pagesVisited ≤ 1 := by
  have hinitq : QueueFromLinks (roughTrim seed) (initState seed) := by
    intro u hu
    simp only [initState, List.mem_singleton] at hu
    exact Or.inr hu
  have hinitv : ∀ v ∈ (initState seed).visitedUrls, v = normalizeUrl (roughTrim seed) := by
    intro v hv
    simp [initState] at hv
  refine ⟨?_, ?_, ?_⟩
  · intro s hs
    exact steps_c4 hg hs hinitq hinitv
  · exact (steps_c4 hg (steps_runLoop w _) hinitq hinitv).2
  · show (runEnd w seed).visitedUrls.length ≤ 1
    have hfin := steps_inv (steps_runLoop w (initState seed)) (initState_inv seed)
    exact length_le_one_of_all_eq hfin.2.2.1
      (steps_c4 hg (steps_runLoop w _) hinitq hinitv).2

theorem link_tested_never_crawled_witness :
    GoodWorld wHealthy ∧ HealthySeed wHealthy "https://s.com" ∧
    (runCrawler wHealthy "https://s.com" "0.0").pagesVisited ≤ 1 :=
  ⟨wHealthy_good, wHealthy_seed,
   (link_tested_never_crawled wHealthy "https://s.com" "0.0" wHealthy_good wHealthy_seed).2.2⟩

/-- C5 counterexample: on the malformed input consisting of a name followed
by two slashes the fallback trims only one slash, so normalization is not
idempotent on that input, refuting idempotence for every input string. -/
theorem normalize_idempotent_cex :
    normalizeUrl (normalizeUrl "x//") ≠ normalizeUrl "x//" ∧
    normalizeUrl "x//" = "x/" ∧ normalizeUrl "x/" = "x" :=
  ⟨by decide, by decide, by decide⟩

/-- C5 amended: normalization is idempotent on every input that the URL
constructor model accepts and on every malformed input that does not end in
two slashes (the fallback trims a single trailing slash); the two concrete
equalities of the claim hold. -/
theorem normalize_idempotent_amended :
    (∀ u : String, (parseUrl u.data).isSome = true ∨ endsTwoSlash u.data = false →
      normalizeUrl (normalizeUrl u) = normalizeUrl u) ∧
    normalizeUrl "https://a.com/x/" = normalizeUrl "https://a.com/x" ∧
    normalizeUrl "https://a.com/x?q=1" = normalizeUrl "https://a.com/x" :=
  ⟨fun _ h => normalizeUrl_idem h, by decide, by decide⟩

theorem normalize_idempotent_amended_witness :
    ((parseUrl ("https://a.com/x?q=1" : String).data).isSome = true ∨
      endsTwoSlash ("https://a.com/x?q=1" : String).data = false) ∧
    normalizeUrl (normalizeUrl "https://a.com/x?q=1") = normalizeUrl "https://a.com/x?q=1" :=
  ⟨Or.inl (by decide),
   normalize_idempotent_amended.1 "https://a.com/x?q=1" (Or.inl (by decide))⟩

/-- C6: classification of a probed page is first-match-wins and dead ends
are not explored. On an HTTP error or the error-page heuristic exactly one
high-severity ERROR_PAGE issue is emitted and the trace of the pass contains
no link or button invocation; otherwise a page without content contributes no
link or button invocation and at most one BLANK_PAGE issue; and no single
pass ever appends both an ERROR_PAGE and a BLANK_PAGE issue. -/
theorem dead_end_no_followthrough (w : World) (st : CrawlState) (u : String)
    (pd : ProbeResult)
    (hv : normalizeUrl u ∉ st.visitedUrls) (hb : st.pageCount < maxPages)
    (hp : w.probe (normalizeUrl u) = ProbeOutcome.ok pd) :
    ((pd.statusCode ≥ 400 ∨ pd.isErrorPage = true) →
      (crawlPage w st u).2 = [Event.pagePass (normalizeUrl u)] ∧
      (crawlPage w st u).1.bugs = st.bugs ++ [errorPageIssue (normalizeUrl u) pd] ∧
      (errorPageIssue (normalizeUrl u) pd).severity = "high" ∧
      (errorPageIssue (normalizeUrl u) pd).type = IssueType.ERROR_PAGE) ∧
    (¬(pd.statusCode ≥ 400 ∨ pd.isErrorPage = true) → pd.hasContent = false →
      (crawlPage w st u).2 = [Event.pagePass (normalizeUrl u)] ∧
      ((crawlPage w st u).1.bugs = st.bugs ++ [blankPageIssue (normalizeUrl u)] ∨
       (crawlPage w st u).1.bugs = st.bugs)) ∧
    (∀ i ∈ ((crawlPage w st u).1.bugs).drop st.bugs.length,
      ∀ j ∈ ((crawlPage w st u).1.bugs).drop st.bugs.length,
      ¬(i.type = IssueType.ERROR_PAGE ∧ j.type = IssueType.BLANK_PAGE)) := by
  have hg : ¬(normalizeUrl u ∈ st.visitedUrls ∨ st.pageCount ≥ maxPages) := by
    push_neg
    exact ⟨hv, hb⟩
  refine ⟨?_, ?_, ?_⟩
  · intro he
    rw [crawlPage_error_page hg hp he]
    exact ⟨rfl, rfl, rfl, rfl⟩
  · intro he hc
    rw [crawlPage_blank hg hp he hc]
    split
    · exact ⟨rfl, Or.inr rfl⟩
    · exact ⟨rfl, Or.inl rfl⟩
  · by_cases he : pd.statusCode ≥ 400 ∨ pd.isErrorPage = true
    · rw [crawlPage_error_page hg hp he]
      intro i hi j hj
      show ¬_
      have hdrop : (st.bugs ++ [errorPageIssue (normalizeUrl u) pd]).drop st.bugs.length =
          [errorPageIssue (normalizeUrl u) pd] := List.drop_left _ _
      rw [hdrop] at hi hj
      simp at hj
      subst hj
      rintro ⟨_, hj2⟩
      exact IssueType.noConfusion hj2
    by_cases hc : pd.hasContent = false
    · rw [crawlPage_blank hg hp he hc]
      split
      · intro i hi j hj
        simp at hi
      · intro i hi j hj
        have hdrop : (st.bugs ++ [blankPageIssue (normalizeUrl u)]).drop st.bugs.length =
            [blankPageIssue (normalizeUrl u)] := List.drop_left _ _
        rw [hdrop] at hi hj
        simp at hi
        subst hi
        rintro ⟨hi2, _⟩
        exact IssueType.noConfusion hi2
    · rw [crawlPage_healthy hg hp he hc]
      set st1 : CrawlState := { st with
        visitedUrls := addSet st.visitedUrls (normalizeUrl u),
        pageCount := st.pageCount + 1 } with hst1
      obtain ⟨t1, ht1, hty1⟩ := linkPhase_bugs w (normalizeUrl u) pd.links st1
      obtain ⟨_, _, _, _, _, _, t2, ht2, hty2⟩ :=
        buttonPhase_frame w (normalizeUrl u) (pd.buttons.take 5)
          (linkPhase w (normalizeUrl u) st1 pd.links).1
      intro i hi j hj
      have hbugs : (buttonPhase w (normalizeUrl u)
          (linkPhase w (normalizeUrl u) st1 pd.links).1 (pd.buttons.take 5)).1.bugs =
          st.bugs ++ (t1 ++ t2) := by
        rw [ht2, ht1]
        show (st1.bugs ++ t1) ++ t2 = st.bugs ++ (t1 ++ t2)
        rw [List.append_assoc]
      rw [hbugs, List.drop_left] at hi
      rintro ⟨hi2, _⟩
      rcases List.mem_append.mp hi with h1 | h1
      · rcases hty1 i h1 with h | h | h <;> rw [hi2] at h <;> cases h
      · rcases hty2 i h1 with h | h <;> rw [hi2] at h <;> cases h

theorem dead_end_no_followthrough_witness :
    normalizeUrl "https://s.com" ∉ (initState "https://s.com").visitedUrls ∧
    (crawlPage wError (initState "https://s.com") "https://s.com").2 =
      [Event.pagePass (normalizeUrl "https://s.com")] :=
  ⟨by decide,
   ((dead_end_no_followthrough wError (initState "https://s.com") "https://s.com"
      { title := "404 Not Found", finalUrl := normalizeUrl "https://s.com", statusCode := 404,
        hasContent := true, isErrorPage := true,
        links := [{ text := "a", href := "https://x.com/a" }],
        buttons := [{ text := "Go" }] }
      (by decide) (by decide) (by decide)).1 (by decide)).1⟩

set_option maxRecDepth 8000 in
/-- C7 counterexample: in the wNavErr run the first link probe throws, so a
NAVIGATION_ERROR is recorded and the destination is not blacklisted; the
destination is later enqueued by a healthy redirect and popped with budget to
spare, yet the main loop discards it because it is in testedLinks, so it is
never crawled: the destination does not remain eligible for crawling. -/
theorem navigation_error_cex :
    (runEnd wNavErr "https://s.com").bugs =
      [navigationErrorIssue "https://s.com" { text := "a", href := "https://d.com/p" }
        "net::ERR_TIMED_OUT"] ∧
    "https://d.com/p" ∉ (runEnd wNavErr "https://s.com").problematicUrls ∧
    Event.enqueue "https://d.com/p" ∈ runEvents wNavErr "https://s.com" ∧
    Event.skip "https://d.com/p" ∈ runEvents wNavErr "https://s.com" ∧
    (runEnd wNavErr "https://s.com").urlQueue = [] ∧
    (runEnd wNavErr "https://s.com").pageCount < maxPages ∧
    "https://d.com/p" ∉ (runEnd wNavErr "https://s.com").visitedUrls := by
  have e1 : (initState "https://s.com").urlQueue = "https://s.com" :: ([] : List String) := by
    decide
  have hrun : runLoop wNavErr (initState "https://s.com") =
      ({ visitedUrls := ["https://s.com"],
         testedLinks := ["https://d.com/p", "https://e.com/q"],
         problematicUrls := [],
         reportedBlankPages := [],
         urlQueue := [],
         bugs := [navigationErrorIssue "https://s.com"
                    { text := "a", href := "https://d.com/p" } "net::ERR_TIMED_OUT"],
         pageCount := 1 },
       [Event.pagePass "https://s.com", Event.linkProbe "https://d.com/p",
        Event.linkProbe "https://e.com/q", Event.linkClass "https://d.com/p",
        Event.enqueue "https://d.com/p", Event.skip "https://d.com/p"]) := by
    rw [runLoop_crawl e1 (by decide) (by decide)]
    have e2 : (crawlPage wNavErr { initState "https://s.com" with urlQueue := [] }
        "https://s.com").1.urlQueue = "https://d.com/p" :: ([] : List String) := by decide
    rw [runLoop_skip e2 (by decide) (by decide)]
    rw [runLoop_nil (show ({ (crawlPage wNavErr
      { initState "https://s.com" with urlQueue := [] } "https://s.com").1 with
        urlQueue := ([] : List String) } : CrawlState).urlQueue = [] from by decide)]
    decide
  refine ⟨?_, ?_, ?_, ?_, ?_, ?_, ?_⟩ <;> simp only [runEnd, runEvents, hrun] <;> decide

/-- C7 amended: a navigation exception while probing a link yields exactly
one medium NAVIGATION_ERROR issue with no destination field, leaves
problematicUrls and the queue untouched, so the destination stays eligible
for later enqueueing by a healthy outcome; but its normalized href is in
testedLinks from before the probe, testedLinks is monotone along the loop,
and the main loop never promotes a testedLinks entry to visited, so the
destination is nonetheless never crawled as a full page afterwards. -/
theorem navigation_error_classification :
    (∀ (w : World) (n : String) (st : CrawlState) (l : Link) (msg : String),
      normalizeUrl l.href ≠ n → normalizeUrl l.href ∉ st.testedLinks →
      w.probe l.href = ProbeOutcome.err msg →
      (testLink w n st l).1.bugs = st.bugs ++ [navigationErrorIssue n l msg] ∧
      (navigationErrorIssue n l msg).severity = "medium" ∧
      (navigationErrorIssue n l msg).type = IssueType.NAVIGATION_ERROR ∧
      (navigationErrorIssue n l msg).destination = none ∧
      (testLink w n st l).1.problematicUrls = st.problematicUrls ∧
      (testLink w n st l).1.urlQueue = st.urlQueue ∧
      (testLink w n st l).1.testedLinks = st.testedLinks ++ [normalizeUrl l.href] ∧
      (testLink w n st l).2 = [Event.linkProbe l.href]) ∧
    (∀ (w : World) (n : String) (st : CrawlState) (l : Link) (r : ProbeResult),
      normalizeUrl l.href ≠ n → normalizeUrl l.href ∉ st.testedLinks →
      w.probe l.href = ProbeOutcome.ok r →
      ¬(r.statusCode ≥ 400 ∨ r.isErrorPage = true) → r.hasContent = true →
      normalizeUrl r.finalUrl ∉ st.visitedUrls → normalizeUrl r.finalUrl ∉ st.urlQueue →
      normalizeUrl r.finalUrl ∉ st.problematicUrls →
      (testLink w n st l).1.urlQueue = st.urlQueue ++ [normalizeUrl r.finalUrl] ∧
      Event.enqueue (normalizeUrl r.finalUrl) ∈ (testLink w n st l).2) ∧
    (∀ (w : World) (s s2 : CrawlState) (u : String), Steps w s s2 → u ∈ s.testedLinks →
      u ∈ s2.testedLinks ∧ (u ∉ s.visitedUrls → u ∉ s2.visitedUrls)) := by
  refine ⟨?_, ?_, ?_⟩
  · intro w n st l msg h1 h2 hp
    have hres : testLink w n st l =
        ({ st with testedLinks := st.testedLinks ++ [normalizeUrl l.href],
                   bugs := st.bugs ++ [navigationErrorIssue n l msg] },
         [Event.linkProbe l.href]) := by
      simp only [testLink, if_neg h1, if_neg h2, hp]
      rw [addSet_of_not_mem h2]
    rw [hres]
    exact ⟨rfl, rfl, rfl, rfl, rfl, rfl, rfl, rfl⟩
  · intro w n st l r h1 h2 hp he hc hv hq hpr
    have hcf : ¬ r.hasContent = false := by
      rw [hc]
      decide
    have hres : testLink w n st l =
        ({ st with testedLinks := st.testedLinks ++ [normalizeUrl l.href],
                   urlQueue := st.urlQueue ++ [normalizeUrl r.finalUrl] },
         [Event.linkProbe l.href, Event.linkClass (normalizeUrl r.finalUrl),
          Event.enqueue (normalizeUrl r.finalUrl)]) := by
      simp only [testLink, if_neg h1, if_neg h2, hp]
      rw [if_neg he, if_neg hcf, if_pos (show
        normalizeUrl r.finalUrl ∉ ({ st with
          testedLinks := addSet st.testedLinks (normalizeUrl l.href) } : CrawlState).visitedUrls ∧
        normalizeUrl r.finalUrl ∉ ({ st with
          testedLinks := addSet st.testedLinks (normalizeUrl l.href) } : CrawlState).urlQueue ∧
        normalizeUrl r.finalUrl ∉ ({ st with
          testedLinks := addSet st.testedLinks (normalizeUrl l.href) } : CrawlState).problematicUrls
        from ⟨hv, hq, hpr⟩)]
      rw [addSet_of_not_mem h2]
    rw [hres]
    exact ⟨rfl, by simp⟩
  · intro w s s2 u hsteps hu
    exact ⟨steps_tested_sub hsteps hu,
      fun hv => steps_visited_keep hsteps (Or.inl hu) hv⟩

theorem navigation_error_classification_witness :
    normalizeUrl "https://d.com/p" ≠ "https://s.com" ∧
    (testLink wProbeFail "https://s.com" (initState "https://s.com")
      { text := "a", href := "https://d.com/p" }).1.bugs =
      (initState "https://s.com").bugs ++
        [navigationErrorIssue "https://s.com" { text := "a", href := "https://d.com/p" }
          "net::ERR_CONNECTION_REFUSED"] :=
  ⟨by decide,
   (navigation_error_classification.1 wProbeFail "https://s.com" (initState "https://s.com")
     { text := "a", href := "https://d.com/p" } "net::ERR_CONNECTION_REFUSED"
     (by decide) (by decide) (by decide)).1⟩

/-- C8 counterexample: the single pre-queued entry is the seed with one
trailing slash trimmed, not the seed under the full canonicalization of the
Normalizer: for a seed with a query string the queue entry keeps the query
while normalizeUrl discards it. -/
theorem initial_state_cex :
    (initState "https://a.com/x?q=1").urlQueue ≠
      [normalizeUrl "https://a.com/x?q=1"] ∧
    (initState "https://a.com/x?q=1").urlQueue = ["https://a.com/x?q=1"] ∧
    normalizeUrl "https://a.com/x?q=1" = "https://a.com/x" ∧
    (initState "https://a.com/x?q=1").pageCount = 0 :=
  ⟨by decide, by decide, by decide, by decide⟩

/-- C8 amended: at crawl start the queue holds exactly one entry, the seed
with a single trailing slash trimmed (the inline ternary of the script, which
is the fallback branch of the Normalizer, not the full canonicalization), the
page counter is zero and every other collection is empty; the entry agrees
with normalizeUrl on seeds without query, fragment or repeated trailing
slashes, but not in general. -/
theorem initial_state_amended (seed : String) :
    (initState seed).urlQueue = [roughTrim seed] ∧
    (initState seed).pageCount = 0 ∧
    (initState seed).visitedUrls = [] ∧
    (initState seed).testedLinks = [] ∧
    (initState seed).problematicUrls = [] ∧
    (initState seed).reportedBlankPages = [] ∧
    (initState seed).bugs = [] ∧
    roughTrim "https://a.com/x/" = normalizeUrl "https://a.com/x/" ∧
    roughTrim "https://a.com/x?q=1" ≠ normalizeUrl "https://a.com/x?q=1" :=
  ⟨rfl, rfl, rfl, rfl, rfl, rfl, rfl, by decide, by decide⟩

/-- C9: the button tester is purely diagnostic. A single button invocation
and the whole button phase leave the queue, the visited set, the problematic
set, the testedLinks set, the reportedBlankPages set and the page counter
unchanged, and can only append BUTTON_ERROR or BUTTON_BLANK issues to the
bugs list. -/
theorem button_tester_pure :
    (∀ (w : World) (n : String) (st : CrawlState) (b : Button),
      (testButton w n st b).1.urlQueue = st.urlQueue ∧
      (testButton w n st b).1.visitedUrls = st.visitedUrls ∧
      (testButton w n st b).1.problematicUrls = st.problematicUrls ∧
      (testButton w n st b).1.testedLinks = st.testedLinks ∧
      (testButton w n st b).1.reportedBlankPages = st.reportedBlankPages ∧
      (testButton w n st b).1.pageCount = st.pageCount ∧
      ∃ t, (testButton w n st b).1.bugs = st.bugs ++ t ∧
        ∀ i ∈ t, i.type = IssueType.BUTTON_ERROR ∨ i.type = IssueType.BUTTON_BLANK) ∧
    (∀ (w : World) (n : String) (st : CrawlState) (bs : List Button),
      (buttonPhase w n st bs).1.urlQueue = st.urlQueue ∧
      (buttonPhase w n st bs).1.visitedUrls = st.visitedUrls ∧
      (buttonPhase w n st bs).1.problematicUrls = st.problematicUrls ∧
      (buttonPhase w n st bs).1.testedLinks = st.testedLinks ∧
      (buttonPhase w n st bs).1.reportedBlankPages = st.reportedBlankPages ∧
      (buttonPhase w n st bs).1.pageCount = st.pageCount ∧
      ∃ t, (buttonPhase w n st bs).1.bugs = st.bugs ++ t ∧
        ∀ i ∈ t, i.type = IssueType.BUTTON_ERROR ∨ i.type = IssueType.BUTTON_BLANK) :=
  ⟨testButton_frame, fun w n st bs => buttonPhase_frame w n bs st⟩

/-- C10: the claimed exception totality fails on the very timeout case the
claim enumerates. When the subprocess times out, the TimeoutExpired handler
removes the temporary script unguarded; if that os.remove raises, the
exception escapes the function (a sibling except clause does not catch an
exception raised inside another handler), so the caller receives an
uncaught exception, not a success-false object. When the cleanup succeeds
the timeout maps to the documented failure object; when the cleanup raises
on the completed path the outer try's generic Exception handler converts it
to a failure object, and on cleanup success the wrapper is total over
outcomes: setup exceptions, nonzero exit codes and unparseable output
become failure objects and a zero exit with parsed output returns the
report. -/
theorem crawler_timeout_cleanup_bug :
    run_stagehand_crawler (CleanupOutcome.raises "PermissionError")
        SubprocessOutcome.timeoutExpired = ApiResult.uncaught "PermissionError" ∧
    (∀ msg, run_stagehand_crawler (CleanupOutcome.raises msg)
        SubprocessOutcome.timeoutExpired ≠ ApiResult.failure msg) ∧
    run_stagehand_crawler CleanupOutcome.ok SubprocessOutcome.timeoutExpired =
      ApiResult.failure "Crawler timed out after 60 seconds" ∧
    (∀ msg msg2, run_stagehand_crawler (CleanupOutcome.raises msg2)
        (SubprocessOutcome.setupFailure msg) =
      ApiResult.failure ("Failed to run crawler: " ++ msg)) ∧
    (∀ (rc : Int) (parsed : Option Report) msg2,
      run_stagehand_crawler (CleanupOutcome.raises msg2)
          (SubprocessOutcome.completed rc parsed) =
        ApiResult.failure ("Failed to run crawler: " ++ msg2)) ∧
    (∀ o : SubprocessOutcome,
      (∃ r, run_stagehand_crawler CleanupOutcome.ok o = ApiResult.report r) ∨
      (∃ e, run_stagehand_crawler CleanupOutcome.ok o = ApiResult.failure e)) ∧
    (∀ (rc : Int) (parsed : Option Report), rc ≠ 0 →
      run_stagehand_crawler CleanupOutcome.ok (SubprocessOutcome.completed rc parsed) =
        ApiResult.failure ("Crawler failed with exit code " ++ toString rc)) ∧
    (∀ r : Report, run_stagehand_crawler CleanupOutcome.ok
        (SubprocessOutcome.completed 0 (some r)) = ApiResult.report r) ∧
    run_stagehand_crawler CleanupOutcome.ok (SubprocessOutcome.completed 0 none) =
      ApiResult.failure "Failed to parse crawler output" := by
  refine ⟨rfl, fun msg h => ApiResult.noConfusion h, rfl, fun msg msg2 => rfl,
    fun rc parsed msg2 => rfl, ?_, ?_, fun r => rfl, rfl⟩
  · intro o
    rcases o with _ | msg | ⟨rc, parsed⟩
    · exact Or.inr ⟨_, rfl⟩
    · exact Or.inr ⟨_, rfl⟩
    · by_cases h0 : rc = 0
      · subst h0
        rcases parsed with _ | r
        · exact Or.inr ⟨_, rfl⟩
        · exact Or.inl ⟨r, rfl⟩
      · right
        refine ⟨"Crawler failed with exit code " ++ toString rc, ?_⟩
        show (if rc = 0 then _ else _) = _
        rw [if_neg h0]
  · intro rc parsed h0
    show (if rc = 0 then _ else _) = _
    rw [if_neg h0]

theorem crawler_timeout_cleanup_bug_witness :
    (1 : Int) ≠ 0 ∧
    run_stagehand_crawler CleanupOutcome.ok (SubprocessOutcome.completed 1 none) =
      ApiResult.failure ("Crawler failed with exit code " ++ toString (1 : Int)) :=
  ⟨by decide, crawler_timeout_cleanup_bug.2.2.2.2.2.2.1 1 none (by decide)⟩

theorem initial_state_amended_witness :
    (initState "https://a.com/x").urlQueue = [roughTrim "https://a.com/x"] ∧
    (initState "https://a.com/x").pageCount = 0 :=
  ⟨(initial_state_amended "https://a.com/x").1, (initial_state_amended "https://a.com/x").2.1⟩

theorem button_tester_pure_witness :
    (buttonPhase wProbeFail "https://s.com" (initState "https://s.com")
      [{ text := "Go" }]).1.urlQueue = (initState "https://s.com").urlQueue ∧
    (buttonPhase wProbeFail "https://s.com" (initState "https://s.com")
      [{ text := "Go" }]).1.problematicUrls = (initState "https://s.com").problematicUrls :=
  ⟨(button_tester_pure.2 wProbeFail "https://s.com" (initState "https://s.com")
      [{ text := "Go" }]).1,
   (button_tester_pure.2 wProbeFail "https://s.com" (initState "https://s.com")
      [{ text := "Go" }]).2.2.1⟩
